import Mathlib

/-!
# libbf.js: the exported wrapper surface of `wrapper.c`

`wrapper.c` is a thin layer over the libbf engine: every exported function
forwards to one engine call, inspects the status (or pointer) the engine
returned, and either returns normally or throws into the host through
`throw_error`.  The engine itself (`libbf/libbf.h`, `libbf.c`) is not part of
the sources, so the engine calls are the fields of an `Engine` record and every
statement about a wrapper is made for an arbitrary engine.
-/

namespace LibbfJs

/-! ## Constants and types declared in `libbf/libbf.h` -/

/-- Modelled from the spec: the status flags of `libbf/libbf.h`, which is not
among the sources.  The spec (section 3) makes a status a set of flags, several
of which may be set at once, so every flag is one distinct bit of the `int` the
engine returns and `0` is the empty set (OK); the bit positions are those of
libbf, `1 << 0` for INVALID_OP up to `1 << 5` for MEM_ERROR.  This one is
INVALID_OPERATION. -/
def BF_ST_INVALID_OP : Int := 1

/-- Modelled from the spec: status flag DIVIDE_BY_ZERO (one bit, see
`BF_ST_INVALID_OP`). -/
def BF_ST_DIVIDE_ZERO : Int := 2

/-- Modelled from the spec: status flag OVERFLOW (one bit). -/
def BF_ST_OVERFLOW : Int := 4

/-- Modelled from the spec: status flag UNDERFLOW (one bit). -/
def BF_ST_UNDERFLOW : Int := 8

/-- Modelled from the spec: status flag INEXACT (one bit). -/
def BF_ST_INEXACT : Int := 16

/-- Modelled from the spec: status flag for ALLOCATION_FAILURE (one bit). -/
def BF_ST_MEM_ERROR : Int := 32

/-- Modelled from the spec: the rounding modes of section 3; the wrapper only
ever passes `BF_RNDN` (round to nearest, ties to even). -/
inductive bf_rnd_t where
  | BF_RNDN
  | BF_RNDZ
  | BF_RNDD
  | BF_RNDU
  | BF_RNDA
  deriving DecidableEq, Repr

/-- Modelled from the spec: the three output policies of `bf_ftoa` the wrapper
selects with `BF_FTOA_FORMAT_FIXED`, `BF_FTOA_FORMAT_FRAC` and
`BF_FTOA_FORMAT_FREE_MIN`. -/
inductive bf_ftoa_format_t where
  | BF_FTOA_FORMAT_FIXED
  | BF_FTOA_FORMAT_FRAC
  | BF_FTOA_FORMAT_FREE_MIN
  deriving DecidableEq, Repr

/-- The flag word `BF_FTOA_FORMAT_... | BF_RNDN` handed to `bf_ftoa`. -/
structure bf_ftoa_flags where
  format : bf_ftoa_format_t
  rnd : bf_rnd_t
  deriving DecidableEq, Repr

/-- The flag word handed to `bf_atof`; the wrapper passes `BF_ATOF_NO_HEX`. -/
structure bf_atof_flags where
  BF_ATOF_NO_HEX : Bool
  deriving DecidableEq, Repr

/-! ## Machine integers at the call boundary -/

/-- The value a parameter declared `int32_t` holds when the caller passes `v`:
the low 32 bits of `v`, read as a two's complement number. -/
def as_int32_t (v : Int) : Int := (v + 2147483648) % 4294967296 - 2147483648

/-- The value a parameter declared `uint32_t` holds when the caller passes `v`:
the low 32 bits of `v`, read as an unsigned number. -/
def as_uint32_t (v : Int) : Int := v % 4294967296

/-- The C conversion of an integer to the engine's unsigned `limb_t`, which is
`bits` wide (`libbf.h` makes it 32 or 64 bits depending on the target). -/
def as_limb_t (bits : Nat) (v : Int) : Nat := (v % (2 : Int) ^ bits).toNat

/-! ## The engine, as seen from the wrapper -/

/-- The libbf calls `wrapper.c` makes.  `Num` is the engine's `bf_t` value and
`Dbl` the host `double`.  A call that writes through a `bf_t*` returns the new
value of that Number next to its `int` status. -/
structure Engine (Num Dbl : Type) where
  LIMB_BITS : Nat
  bf_set_float64 : Num → Dbl → Num × Int
  bf_atof : Num → String → Nat → Nat → bf_atof_flags → Num × Int
  bf_set : Num → Num → Num × Int
  bf_const_log2 : Num → Nat → bf_rnd_t → Num × Int
  bf_const_pi : Num → Nat → bf_rnd_t → Num × Int
  bf_neg : Num → Num
  bf_is_finite : Num → Int
  bf_is_nan : Num → Int
  bf_is_zero : Num → Int
  bf_cmpu : Num → Num → Int
  bf_cmp_full : Num → Num → Int
  bf_cmp : Num → Num → Int
  bf_add : Num → Num → Num → Nat → bf_rnd_t → Num × Int
  bf_sub : Num → Num → Num → Nat → bf_rnd_t → Num × Int
  bf_mul : Num → Num → Num → Nat → bf_rnd_t → Num × Int
  bf_div : Num → Num → Num → Nat → bf_rnd_t → Num × Int
  bf_rem : Num → Num → Num → Nat → bf_rnd_t → bf_rnd_t → Num × Int
  bf_divrem : Num → Num → Num → Num → Nat → bf_rnd_t → bf_rnd_t → (Num × Num) × Int
  bf_round : Num → Nat → bf_rnd_t → Num × Int
  bf_sqrt : Num → Num → Nat → bf_rnd_t → Num × Int
  bf_exp : Num → Num → Nat → bf_rnd_t → Num × Int
  bf_log : Num → Num → Nat → bf_rnd_t → Num × Int
  bf_pow : Num → Num → Num → Nat → bf_rnd_t → Num × Int
  bf_cos : Num → Num → Nat → bf_rnd_t → Num × Int
  bf_sin : Num → Num → Nat → bf_rnd_t → Num × Int
  bf_tan : Num → Num → Nat → bf_rnd_t → Num × Int
  bf_acos : Num → Num → Nat → bf_rnd_t → Num × Int
  bf_asin : Num → Num → Nat → bf_rnd_t → Num × Int
  bf_atan : Num → Num → Nat → bf_rnd_t → Num × Int
  bf_get_float64 : Num → bf_rnd_t → Dbl × Int
  bf_ftoa : Num → Nat → Nat → bf_ftoa_flags → Option String

/-- What an exported `void` function leaves behind: the value the engine wrote
into the output Number(s), and the message handed to `throw_error`, if any.
The engine call comes first in every wrapper, so the output is written whether
or not the wrapper then throws. -/
structure Outcome (α : Type) where
  out : α
  thrown : Option String
  deriving DecidableEq, Repr

/-- The wrapper returned to its caller without calling `throw_error`. -/
def Outcome.returns {α : Type} (o : Outcome α) : Prop := o.thrown = none

/-- The wrapper called `throw_error`. -/
def Outcome.throws {α : Type} (o : Outcome α) : Prop := o.thrown ≠ none

instance {α : Type} (o : Outcome α) : Decidable o.returns :=
  inferInstanceAs (Decidable (o.thrown = none))

instance {α : Type} (o : Outcome α) : Decidable o.throws :=
  inferInstanceAs (Decidable (o.thrown ≠ none))

variable {Num Dbl : Type}

/-! ## The exported functions of `wrapper.c` -/

/-- Exported `set_f64`: throws unless `bf_set_float64` returned 0. -/
def set_f64 (E : Engine Num Dbl) (bf : Num) (value : Dbl) : Outcome Num :=
  let r := E.bf_set_float64 bf value
  let ret := r.2
  if ret ≠ 0 then ⟨r.1, some "could not set to float"⟩ else ⟨r.1, none⟩

/-- Exported `set_string`: decimal input only; throws unless `bf_atof` returned 0. -/
def set_string (E : Engine Num Dbl) (bf : Num) (s : String) (precision : Int) : Outcome Num :=
  let r := E.bf_atof bf s 10 (as_limb_t E.LIMB_BITS (as_uint32_t precision)) ⟨true⟩
  let ret := r.2
  if ret ≠ 0 then ⟨r.1, some "could not set to string"⟩ else ⟨r.1, none⟩

/-- Exported `set_value`: throws unless `bf_set` returned 0. -/
def set_value (E : Engine Num Dbl) (self new_value : Num) : Outcome Num :=
  let r := E.bf_set self new_value
  let ret := r.2
  if ret ≠ 0 then ⟨r.1, some "could not set BigFloat from BigFloat"⟩ else ⟨r.1, none⟩

/-- Exported `wrapper_set_log2`: `bf_const_log2` under `BF_RNDN`;
throws unless the status is 0 or INEXACT alone. -/
def wrapper_set_log2 (E : Engine Num Dbl) (bf : Num) (precision : Int) : Outcome Num :=
  let r := E.bf_const_log2 bf (as_limb_t E.LIMB_BITS (as_uint32_t precision)) .BF_RNDN
  let ret := r.2
  if ret ≠ 0 ∧ ret ≠ BF_ST_INEXACT then ⟨r.1, some "error setting log(2)"⟩ else ⟨r.1, none⟩

/-- Exported `wrapper_set_pi`: `bf_const_pi` under `BF_RNDN`;
throws unless the status is 0 or INEXACT alone. -/
def wrapper_set_pi (E : Engine Num Dbl) (bf : Num) (precision : Int) : Outcome Num :=
  let r := E.bf_const_pi bf (as_limb_t E.LIMB_BITS (as_uint32_t precision)) .BF_RNDN
  let ret := r.2
  if ret ≠ 0 ∧ ret ≠ BF_ST_INEXACT then ⟨r.1, some "error setting pi"⟩ else ⟨r.1, none⟩

/-- Exported `negate`: forwards to `bf_neg`. -/
def negate (E : Engine Num Dbl) (bf : Num) : Num := E.bf_neg bf

/-- Exported `is_finite`: forwards to `bf_is_finite`. -/
def is_finite (E : Engine Num Dbl) (bf : Num) : Int := E.bf_is_finite bf

/-- Exported `is_nan`: forwards to `bf_is_nan`. -/
def is_nan (E : Engine Num Dbl) (bf : Num) : Int := E.bf_is_nan bf

/-- Exported `is_zero`: forwards to `bf_is_zero`. -/
def is_zero (E : Engine Num Dbl) (bf : Num) : Int := E.bf_is_zero bf

/-- Exported `compare_abs`: forwards to `bf_cmpu`. -/
def compare_abs (E : Engine Num Dbl) (a b : Num) : Int := E.bf_cmpu a b

/-- Exported `compare_full`: forwards to `bf_cmp_full`. -/
def compare_full (E : Engine Num Dbl) (a b : Num) : Int := E.bf_cmp_full a b

/-- Exported `compare`: standard comparison; throws if `bf_cmp` reports 2 (unordered),
in which case control never comes back to the `return`. -/
def compare (E : Engine Num Dbl) (a b : Num) : Except String Int :=
  let ret := E.bf_cmp a b
  if ret = 2 then .error "NaN cannot be compared" else .ok ret

/-- Exported `wrapper_add`: `bf_add` under `BF_RNDN`;
throws unless the status is 0 or INEXACT alone. -/
def wrapper_add (E : Engine Num Dbl) (a b : Num) (precision : Int) (result : Num) : Outcome Num :=
  let r := E.bf_add result a b (as_limb_t E.LIMB_BITS (as_int32_t precision)) .BF_RNDN
  let ret := r.2
  if ret ≠ 0 ∧ ret ≠ BF_ST_INEXACT then ⟨r.1, some "error while adding"⟩ else ⟨r.1, none⟩

/-- Exported `wrapper_sub`: `bf_sub` under `BF_RNDN`;
throws unless the status is 0 or INEXACT alone. -/
def wrapper_sub (E : Engine Num Dbl) (a b : Num) (precision : Int) (result : Num) : Outcome Num :=
  let r := E.bf_sub result a b (as_limb_t E.LIMB_BITS (as_int32_t precision)) .BF_RNDN
  let ret := r.2
  if ret ≠ 0 ∧ ret ≠ BF_ST_INEXACT then ⟨r.1, some "error while subtracting"⟩ else ⟨r.1, none⟩

/-- Exported `wrapper_mul`: `bf_mul` under `BF_RNDN`;
throws unless the status is 0 or INEXACT alone. -/
def wrapper_mul (E : Engine Num Dbl) (a b : Num) (precision : Int) (result : Num) : Outcome Num :=
  let r := E.bf_mul result a b (as_limb_t E.LIMB_BITS (as_int32_t precision)) .BF_RNDN
  let ret := r.2
  if ret ≠ 0 ∧ ret ≠ BF_ST_INEXACT then ⟨r.1, some "error while multiplying"⟩ else ⟨r.1, none⟩

/-- Exported `wrapper_div`: `bf_div` under `BF_RNDN`; DIVIDE_ZERO alone is
let through as well. -/
def wrapper_div (E : Engine Num Dbl) (a b : Num) (precision : Int) (result : Num) : Outcome Num :=
  let r := E.bf_div result a b (as_limb_t E.LIMB_BITS (as_int32_t precision)) .BF_RNDN
  let ret := r.2
  if ret ≠ 0 ∧ ret ≠ BF_ST_INEXACT ∧ ret ≠ BF_ST_DIVIDE_ZERO then
    ⟨r.1, some "error while dividing"⟩
  else ⟨r.1, none⟩

/-- Exported `wrapper_rem`: `bf_rem` under `BF_RNDN`; DIVIDE_ZERO alone is
let through as well. -/
def wrapper_rem (E : Engine Num Dbl) (a b : Num) (precision : Int) (result : Num) : Outcome Num :=
  let r := E.bf_rem result a b (as_limb_t E.LIMB_BITS (as_int32_t precision)) .BF_RNDN .BF_RNDN
  let ret := r.2
  if ret ≠ 0 ∧ ret ≠ BF_ST_INEXACT ∧ ret ≠ BF_ST_DIVIDE_ZERO then
    ⟨r.1, some "error while dividing"⟩
  else ⟨r.1, none⟩

/-- Exported `wrapper_divrem`: `bf_divrem` under `BF_RNDN`; the output is the pair
(quotient, remainder); DIVIDE_ZERO alone is let through as well. -/
def wrapper_divrem (E : Engine Num Dbl) (a b : Num) (precision : Int) (quotient remainder : Num) :
    Outcome (Num × Num) :=
  let r := E.bf_divrem quotient remainder a b
    (as_limb_t E.LIMB_BITS (as_int32_t precision)) .BF_RNDN .BF_RNDN
  let ret := r.2
  if ret ≠ 0 ∧ ret ≠ BF_ST_INEXACT ∧ ret ≠ BF_ST_DIVIDE_ZERO then
    ⟨r.1, some "error while dividing"⟩
  else ⟨r.1, none⟩

/-- Exported `wrapper_round`: `bf_round` under `BF_RNDN`, rounding `bf` in place;
throws unless the status is 0 or INEXACT alone. -/
def wrapper_round (E : Engine Num Dbl) (bf : Num) (precision : Int) : Outcome Num :=
  let r := E.bf_round bf (as_limb_t E.LIMB_BITS (as_int32_t precision)) .BF_RNDN
  let ret := r.2
  if ret ≠ 0 ∧ ret ≠ BF_ST_INEXACT then ⟨r.1, some "error while rounding"⟩ else ⟨r.1, none⟩

/-- Exported `wrapper_sqrt`: `bf_sqrt` under `BF_RNDN`;
throws unless the status is 0 or INEXACT alone. -/
def wrapper_sqrt (E : Engine Num Dbl) (bf : Num) (precision : Int) (result : Num) : Outcome Num :=
  let r := E.bf_sqrt result bf (as_limb_t E.LIMB_BITS (as_int32_t precision)) .BF_RNDN
  let ret := r.2
  if ret ≠ 0 ∧ ret ≠ BF_ST_INEXACT then
    ⟨r.1, some "error while taking square root"⟩
  else ⟨r.1, none⟩

/-- Exported `wrapper_exp`: `bf_exp` under `BF_RNDN`;
throws unless the status is 0 or INEXACT alone. -/
def wrapper_exp (E : Engine Num Dbl) (bf : Num) (precision : Int) (result : Num) : Outcome Num :=
  let r := E.bf_exp result bf (as_limb_t E.LIMB_BITS (as_int32_t precision)) .BF_RNDN
  let ret := r.2
  if ret ≠ 0 ∧ ret ≠ BF_ST_INEXACT then ⟨r.1, some "error while exponentiating"⟩ else ⟨r.1, none⟩

/-- Exported `wrapper_log`: `bf_log` under `BF_RNDN`;
throws unless the status is 0 or INEXACT alone. -/
def wrapper_log (E : Engine Num Dbl) (bf : Num) (precision : Int) (result : Num) : Outcome Num :=
  let r := E.bf_log result bf (as_limb_t E.LIMB_BITS (as_int32_t precision)) .BF_RNDN
  let ret := r.2
  if ret ≠ 0 ∧ ret ≠ BF_ST_INEXACT then ⟨r.1, some "error while taking logarithm"⟩ else ⟨r.1, none⟩

/-- Exported `wrapper_pow`: `bf_pow` under `BF_RNDN`;
throws unless the status is 0 or INEXACT alone. -/
def wrapper_pow (E : Engine Num Dbl) (base exponent : Num) (precision : Int) (result : Num) :
    Outcome Num :=
  let r := E.bf_pow result base exponent (as_limb_t E.LIMB_BITS (as_int32_t precision)) .BF_RNDN
  let ret := r.2
  if ret ≠ 0 ∧ ret ≠ BF_ST_INEXACT then ⟨r.1, some "error while raising to power"⟩ else ⟨r.1, none⟩

/-- Exported `wrapper_cos`: `bf_cos` under `BF_RNDN`;
throws unless the status is 0 or INEXACT alone. -/
def wrapper_cos (E : Engine Num Dbl) (angle : Num) (precision : Int) (result : Num) : Outcome Num :=
  let r := E.bf_cos result angle (as_limb_t E.LIMB_BITS (as_int32_t precision)) .BF_RNDN
  let ret := r.2
  if ret ≠ 0 ∧ ret ≠ BF_ST_INEXACT then ⟨r.1, some "error wile taking cosine"⟩ else ⟨r.1, none⟩

/-- Exported `wrapper_sin`: `bf_sin` under `BF_RNDN`;
throws unless the status is 0 or INEXACT alone. -/
def wrapper_sin (E : Engine Num Dbl) (angle : Num) (precision : Int) (result : Num) : Outcome Num :=
  let r := E.bf_sin result angle (as_limb_t E.LIMB_BITS (as_int32_t precision)) .BF_RNDN
  let ret := r.2
  if ret ≠ 0 ∧ ret ≠ BF_ST_INEXACT then ⟨r.1, some "error wile taking sine"⟩ else ⟨r.1, none⟩

/-- Exported `wrapper_tan`: `bf_tan` under `BF_RNDN`;
throws unless the status is 0 or INEXACT alone. -/
def wrapper_tan (E : Engine Num Dbl) (angle : Num) (precision : Int) (result : Num) : Outcome Num :=
  let r := E.bf_tan result angle (as_limb_t E.LIMB_BITS (as_int32_t precision)) .BF_RNDN
  let ret := r.2
  if ret ≠ 0 ∧ ret ≠ BF_ST_INEXACT then ⟨r.1, some "error wile taking tangent"⟩ else ⟨r.1, none⟩

/-- Exported `wrapper_acos`: `bf_acos` under `BF_RNDN`;
throws unless the status is 0 or INEXACT alone. -/
def wrapper_acos (E : Engine Num Dbl) (x : Num) (precision : Int) (result : Num) : Outcome Num :=
  let r := E.bf_acos result x (as_limb_t E.LIMB_BITS (as_int32_t precision)) .BF_RNDN
  let ret := r.2
  if ret ≠ 0 ∧ ret ≠ BF_ST_INEXACT then ⟨r.1, some "error wile taking arccosine"⟩ else ⟨r.1, none⟩

/-- Exported `wrapper_asin`: `bf_asin` under `BF_RNDN`;
throws unless the status is 0 or INEXACT alone. -/
def wrapper_asin (E : Engine Num Dbl) (x : Num) (precision : Int) (result : Num) : Outcome Num :=
  let r := E.bf_asin result x (as_limb_t E.LIMB_BITS (as_int32_t precision)) .BF_RNDN
  let ret := r.2
  if ret ≠ 0 ∧ ret ≠ BF_ST_INEXACT then ⟨r.1, some "error wile taking arcsine"⟩ else ⟨r.1, none⟩

/-- Exported `wrapper_atan`: `bf_atan` under `BF_RNDN`;
throws unless the status is 0 or INEXACT alone. -/
def wrapper_atan (E : Engine Num Dbl) (x : Num) (precision : Int) (result : Num) : Outcome Num :=
  let r := E.bf_atan result x (as_limb_t E.LIMB_BITS (as_int32_t precision)) .BF_RNDN
  let ret := r.2
  if ret ≠ 0 ∧ ret ≠ BF_ST_INEXACT then ⟨r.1, some "error wile taking arctangent"⟩ else ⟨r.1, none⟩

/-- Exported `to_float`: the output is the `double` the engine stored in `result`. -/
def to_float (E : Engine Num Dbl) (bf : Num) : Outcome Dbl :=
  let r := E.bf_get_float64 bf .BF_RNDN
  let ret := r.2
  if ret ≠ 0 ∧ ret ≠ BF_ST_INEXACT then
    ⟨r.1, some "could not get f64 from BigFloat"⟩
  else ⟨r.1, none⟩

/-- Exported `to_fixed`: `bf_ftoa` in radix 10 with `BF_FTOA_FORMAT_FIXED | BF_RNDN`; the
count parameter is called `significant_digits` in the source.  `none` from the
engine is the NULL pointer. -/
def to_fixed (E : Engine Num Dbl) (bf : Num) (significant_digits : Int) : Except String String :=
  match E.bf_ftoa bf 10 (as_limb_t E.LIMB_BITS (as_uint32_t significant_digits))
      ⟨.BF_FTOA_FORMAT_FIXED, .BF_RNDN⟩ with
  | none => .error "could not write BigFloat to fixed string"
  | some s => .ok s

/-- Exported `to_fraction`: `bf_ftoa` in radix 10 with `BF_FTOA_FORMAT_FRAC | BF_RNDN`; the
count parameter is called `fraction_digits` in the source. -/
def to_fraction (E : Engine Num Dbl) (bf : Num) (fraction_digits : Int) : Except String String :=
  match E.bf_ftoa bf 10 (as_limb_t E.LIMB_BITS (as_uint32_t fraction_digits))
      ⟨.BF_FTOA_FORMAT_FRAC, .BF_RNDN⟩ with
  | none => .error "could not write BigFloat to fractional string"
  | some s => .ok s

/-- Exported `to_free`: `bf_ftoa` in radix 10 with `BF_FTOA_FORMAT_FREE_MIN | BF_RNDN`; the
parameter is a bit precision. -/
def to_free (E : Engine Num Dbl) (bf : Num) (precision : Int) : Except String String :=
  match E.bf_ftoa bf 10 (as_limb_t E.LIMB_BITS (as_uint32_t precision))
      ⟨.BF_FTOA_FORMAT_FREE_MIN, .BF_RNDN⟩ with
  | none => .error "could not write BigFloat to string"
  | some s => .ok s

/-! ## Reading a status word -/

/-- The C test `(s & ~BF_ST_INEXACT) != 0`: the status `s` has at least one bit
set other than the INEXACT bit. -/
def has_flag_other_than_inexact (s : Int) : Bool :=
  Int.land s (Int.not BF_ST_INEXACT) != 0

/-- The C test `(s & f) != 0`: the status `s` contains the flag `f`. -/
def has_flag (s f : Int) : Bool := Int.land s f != 0

/-! ## Numbers and a fixed-status engine -/

/-- Modelled from the spec: the Number (`bf_t` of `libbf.h`, not among the
sources) as the tagged variant of sections 3 and 9: NaN, a signed infinity, a
signed zero, or a finite non-zero value `(-1)^neg * mant * 2^expn`, `mant > 0`. -/
inductive bf_t where
  | nan
  | inf (neg : Bool)
  | zero (neg : Bool)
  | fin (neg : Bool) (mant : Nat) (expn : Int)
  deriving DecidableEq, Repr

/-- An engine whose every call reports the status `st` and writes `r` into its
output Number; it shows how a wrapper reacts to one given status, whatever
operation produced it. -/
def Engine.reporting (st : Int) (r : Num) (d : Dbl) (order : Int) (text : Option String) :
    Engine Num Dbl where
  LIMB_BITS := 32
  bf_set_float64 := fun _ _ => (r, st)
  bf_atof := fun _ _ _ _ _ => (r, st)
  bf_set := fun _ _ => (r, st)
  bf_const_log2 := fun _ _ _ => (r, st)
  bf_const_pi := fun _ _ _ => (r, st)
  bf_neg := fun _ => r
  bf_is_finite := fun _ => order
  bf_is_nan := fun _ => order
  bf_is_zero := fun _ => order
  bf_cmpu := fun _ _ => order
  bf_cmp_full := fun _ _ => order
  bf_cmp := fun _ _ => order
  bf_add := fun _ _ _ _ _ => (r, st)
  bf_sub := fun _ _ _ _ _ => (r, st)
  bf_mul := fun _ _ _ _ _ => (r, st)
  bf_div := fun _ _ _ _ _ => (r, st)
  bf_rem := fun _ _ _ _ _ _ => (r, st)
  bf_divrem := fun _ _ _ _ _ _ _ => ((r, r), st)
  bf_round := fun _ _ _ => (r, st)
  bf_sqrt := fun _ _ _ _ => (r, st)
  bf_exp := fun _ _ _ _ => (r, st)
  bf_log := fun _ _ _ _ => (r, st)
  bf_pow := fun _ _ _ _ _ => (r, st)
  bf_cos := fun _ _ _ _ => (r, st)
  bf_sin := fun _ _ _ _ => (r, st)
  bf_tan := fun _ _ _ _ => (r, st)
  bf_acos := fun _ _ _ _ => (r, st)
  bf_asin := fun _ _ _ _ => (r, st)
  bf_atan := fun _ _ _ _ => (r, st)
  bf_get_float64 := fun _ _ => (d, st)
  bf_ftoa := fun _ _ _ _ => text

deriving instance DecidableEq for Except

/-! ## Decimal conversion, modelled from the spec -/

/-- Modelled from the spec: a decimal numeral as the parser of section 4.2
reads it: sign, the integer and fractional digits taken together as one
natural number, and the power of ten that scales them; its value is
`(-1)^neg * digits * 10^scale`. -/
structure decimal_numeral where
  neg : Bool
  digits : Nat
  scale : Int
  deriving DecidableEq, Repr

/-- The value of a decimal digit character. -/
def digit_value (c : Char) : Nat := c.toNat - 48

/-- The character of the decimal digit `d % 10`. -/
def digit_char (d : Nat) : Char := Char.ofNat (48 + d % 10)

/-- Modelled from the spec: the longest run of decimal digits a text starts
with, and what follows it. -/
def span_digits : List Char → List Char × List Char
  | [] => ([], [])
  | c :: t => if c.isDigit then ((c :: (span_digits t).1), (span_digits t).2) else ([], c :: t)

/-- The natural number a run of decimal digits denotes. -/
def digits_to_nat (l : List Char) : Nat :=
  l.foldl (fun acc c => 10 * acc + digit_value c) 0

/-- Modelled from the spec: the optional sign of a numeral, and what follows. -/
def strip_sign : List Char → Bool × List Char
  | [] => (false, [])
  | c :: t => if c = '-' then (true, t) else if c = '+' then (false, t) else (false, c :: t)

/-- Modelled from the spec: the optional exponent of a numeral, which must end
the text: nothing (exponent 0), or `e` or `E`, an optional sign and at least
one digit.  `none` when anything else follows the mantissa. -/
def parse_exponent : List Char → Option Int
  | [] => some 0
  | c :: t =>
    if c = 'e' ∨ c = 'E' then
      if (span_digits (strip_sign t).2).1 ≠ [] ∧ (span_digits (strip_sign t).2).2 = [] then
        some (if (strip_sign t).1 then -(digits_to_nat (span_digits (strip_sign t).2).1 : Int)
          else (digits_to_nat (span_digits (strip_sign t).2).1 : Int))
      else none
    else none

/-- The fractional part of a numeral: a point and a run of digits, or nothing. -/
def span_fraction : List Char → List Char × List Char
  | [] => ([], [])
  | c :: t => if c = '.' then span_digits t else ([], c :: t)

/-- Modelled from the spec: the parser of section 4.2 for a whole text:
optional sign, integer part, fractional part, optional exponent, decimal digits
only, with at least one digit in the mantissa.  `none` is PARSE_ERROR. -/
def parse_decimal (l : List Char) : Option decimal_numeral :=
  let sg := strip_sign l
  let ip := span_digits sg.2
  let fp := span_fraction ip.2
  if ip.1 = [] ∧ fp.1 = [] then none
  else
    match parse_exponent fp.2 with
    | none => none
    | some ex => some ⟨sg.1, digits_to_nat (ip.1 ++ fp.1), ex - (fp.1.length : Int)⟩

/-- Number of binary digits of `v`, counted with `fuel` halvings at most. -/
def bit_length_aux : Nat → Nat → Nat
  | 0, _ => 0
  | f + 1, v => if v = 0 then 0 else 1 + bit_length_aux f (v / 2)

/-- Number of binary digits of `v` (0 for 0). -/
def bit_length (v : Nat) : Nat := bit_length_aux v v

/-- Number of decimal digits of `v`, counted with `fuel` divisions at most. -/
def ndigits_aux : Nat → Nat → Nat
  | 0, _ => 1
  | f + 1, v => if v < 10 then 1 else 1 + ndigits_aux f (v / 10)

/-- Number of decimal digits of `v` (1 for 0). -/
def ndigits (v : Nat) : Nat := ndigits_aux v v

/-- Number of trailing zero bits of `v`, looked for among the low `fuel` bits. -/
def trailing_zeros_aux : Nat → Nat → Nat
  | 0, _ => 0
  | f + 1, v => if v % 2 = 1 then 0 else 1 + trailing_zeros_aux f (v / 2)

/-- The finite Number `(-1)^neg * m * 2^e` in its normal form: zero, or an odd
mantissa. -/
def normalize (neg : Bool) (m : Nat) (e : Int) : bf_t :=
  if m = 0 then bf_t.zero neg
  else
    let k := trailing_zeros_aux (bit_length m) m
    bf_t.fin neg (m / 2 ^ k) (e + (k : Int))

/-- Round `q + (a non-zero rest)` to the integer nearest: `low` out of `2 * half`
is the part below the last kept unit, `sticky` says that something non-zero
lies even below `low`; a tie goes to the even neighbour. -/
def round_half_even (q low half : Nat) (sticky : Bool) : Nat :=
  if low > half ∨ (low = half ∧ (sticky ∨ q % 2 = 1)) then q + 1 else q

/-- Modelled from the spec: the rounding machinery of section 4.3 for the
positive rational `num / den` (`den > 0`), precision `prec` and nearest-even:
the nearest Number with a `prec`-bit mantissa, and the status, INEXACT when
`num / den` is not such a Number itself.  The exponent range is not bounded in
this model, so OVERFLOW and UNDERFLOW do not arise. -/
def round_ratio (neg : Bool) (num den prec : Nat) : bf_t × Int :=
  if num = 0 then (bf_t.zero neg, 0)
  else
    let t := (prec + 2 + bit_length den) - bit_length num
    let Q := (num * 2 ^ t) / den
    let R := (num * 2 ^ t) % den
    let s := bit_length Q - prec
    let q := Q / 2 ^ s
    let low := Q % 2 ^ s
    let m := round_half_even q low (2 ^ (s - 1)) (decide (R ≠ 0))
    (normalize neg m ((s : Int) - (t : Int)),
      if low ≠ 0 ∨ R ≠ 0 then BF_ST_INEXACT else 0)

/-- Modelled from the spec: a parsed numeral rounded to `prec` bits. -/
def round_decimal (d : decimal_numeral) (prec : Nat) : bf_t × Int :=
  if 0 ≤ d.scale then round_ratio d.neg (d.digits * 10 ^ d.scale.toNat) 1 prec
  else round_ratio d.neg d.digits (10 ^ (-d.scale).toNat) prec

/-- Modelled from the spec: `bf_atof` (section 4.2, `set_from_decimal_text`):
parse the whole text as a decimal numeral and round it to `prec` bits under
nearest-even; malformed text fails with PARSE_ERROR, reported as the non-zero
status `parse_error`, the Number being left NaN.  The text is read in radix 10
whatever `radix` says. -/
def bf_atof_model (parse_error : Int) (_r : bf_t) (s : String) (_radix prec : Nat)
    (_flags : bf_atof_flags) : bf_t × Int :=
  match parse_decimal s.toList with
  | none => (bf_t.nan, parse_error)
  | some d => round_decimal d prec

/-- The positive rational `m * 2^e` as numerator and denominator. -/
def ratio_of (m : Nat) (e : Int) : Nat × Nat :=
  if 0 ≤ e then (m * 2 ^ e.toNat, 1) else (m, 2 ^ (-e).toNat)

/-- The `w` low decimal digits of `v`, most significant first. -/
def fixed_digits : Nat → Nat → List Char
  | 0, _ => []
  | w + 1, v => fixed_digits w (v / 10) ++ [digit_char v]

/-- The decimal digits of `v`, without leading zeros (`0` for 0). -/
def nat_digits (v : Nat) : List Char := fixed_digits (ndigits v) v

/-- The sign a text starts with. -/
def sign_chars (neg : Bool) : List Char := if neg then ['-'] else []

/-- Modelled from the spec: the positive rational `num / den` rounded to `n`
significant decimal digits under nearest-even: the `n`-digit integer `N`
(`10^(n-1) <= N < 10^n`) and the decimal exponent `E` of its leading digit, so
that `num / den` is about `N * 10^(E - n + 1)`. -/
def significant (num den n : Nat) : Nat × Int :=
  let K := n + ndigits den
  let W := (num * 10 ^ K) / den
  let R := (num * 10 ^ K) % den
  let D := ndigits W
  let q := W / 10 ^ (D - n)
  let low := W % 10 ^ (D - n)
  let N := round_half_even q low (5 * 10 ^ (D - n - 1)) (decide (R ≠ 0))
  if N = 10 ^ n then (10 ^ (n - 1), (D : Int) - (K : Int))
  else (N, (D : Int) - 1 - (K : Int))

/-- Modelled from the spec: the text of `n` significant digits `N` whose leading
digit has the decimal exponent `E`: positional when the point falls inside or
right after the digits, `0.000ddd` for a few leading zeros, and exponent
notation (`d.ddde<E>`) otherwise. -/
def render_significant (neg : Bool) (N : Nat) (E : Int) (n : Nat) : List Char :=
  if 0 < E + 1 ∧ E + 1 < (n : Int) then
    sign_chars neg ++ (fixed_digits n N).take (E + 1).toNat ++
      '.' :: (fixed_digits n N).drop (E + 1).toNat
  else if E + 1 = (n : Int) then sign_chars neg ++ fixed_digits n N
  else if -6 < E + 1 ∧ E + 1 ≤ 0 then
    sign_chars neg ++ '0' :: '.' :: (List.replicate (-(E + 1)).toNat '0' ++ fixed_digits n N)
  else
    sign_chars neg ++ (fixed_digits n N).take 1 ++
      (if 1 < n then '.' :: (fixed_digits n N).drop 1 else []) ++
      'e' :: (sign_chars (decide (E < 0)) ++ nat_digits E.natAbs)

/-- Order of two positive magnitudes `m1 * 2^e1` and `m2 * 2^e2`: -1, 0 or 1. -/
def cmp_magnitude (m1 : Nat) (e1 : Int) (m2 : Nat) (e2 : Int) : Int :=
  let e := min e1 e2
  let a := m1 * 2 ^ (e1 - e).toNat
  let b := m2 * 2 ^ (e2 - e).toNat
  if a < b then -1 else if a = b then 0 else 1

/-- Sign of a Number that is not NaN: -1, 0 or 1. -/
def signum : bf_t → Int
  | bf_t.nan => 0
  | bf_t.zero _ => 0
  | bf_t.inf neg => if neg then -1 else 1
  | bf_t.fin neg m _ => if m = 0 then 0 else if neg then -1 else 1

/-- Modelled from the spec: `bf_cmp`, the numeric comparison of section 4.6:
2 when an operand is NaN, otherwise -1, 0 or 1, with -0 equal to +0. -/
def bf_cmp_model (a b : bf_t) : Int :=
  match a, b with
  | bf_t.nan, _ => 2
  | _, bf_t.nan => 2
  | bf_t.inf _, bf_t.inf _ => if signum a < signum b then -1 else if signum a = signum b then 0 else 1
  | bf_t.fin _ m1 e1, bf_t.fin _ m2 e2 =>
    if signum a < signum b then -1
    else if signum b < signum a then 1
    else signum a * cmp_magnitude m1 e1 m2 e2
  | bf_t.inf _, _ => signum a
  | _, bf_t.inf _ => -signum b
  | _, _ => if signum a < signum b then -1 else if signum a = signum b then 0 else 1

/-- Modelled from the spec: the shortest-round-trip search of section 4.7: try
1, 2, ... significant digits (`fuel` tries from `d` on) and keep the first text
that `bf_atof` reads back, at `prec` bits, as a Number equal to `x`. -/
def free_min_search (parse_error : Int) (x : bf_t) (neg : Bool) (num den prec : Nat) :
    Nat → Nat → Option (List Char)
  | 0, _ => none
  | fuel + 1, d =>
    if bf_cmp_model
        (bf_atof_model parse_error x
          (String.mk (render_significant neg (significant num den d).1 (significant num den d).2 d))
          10 prec ⟨true⟩).1 x = 0 then
      some (render_significant neg (significant num den d).1 (significant num den d).2 d)
    else free_min_search parse_error x neg num den prec fuel (d + 1)

/-- Modelled from the spec: `bf_ftoa` in radix 10 for the free-form minimal
format of section 4.7, the one `to_free` asks for: the shortest decimal text
that reads back, at `prec` bits, as the same value.  The wrapper hands a bit
`precision` as the count parameter, and the Number of this model carries no
precision of its own, so `prec` is the precision the text is read back at.  The
model never runs out of memory; it answers NULL only when the search finds no
text. -/
def bf_ftoa_free_min_model (parse_error : Int) (a : bf_t) (prec : Nat) : Option String :=
  match a with
  | bf_t.nan => some "NaN"
  | bf_t.inf neg => some (String.mk (sign_chars neg ++ ['I', 'n', 'f']))
  | bf_t.zero neg => some (String.mk (sign_chars neg ++ ['0']))
  | bf_t.fin neg m e =>
    (free_min_search parse_error a neg (ratio_of m e).1 (ratio_of m e).2 prec (prec + 2) 1).map
      String.mk

/-- An engine whose conversion calls are the models above: `bf_atof`, `bf_cmp`,
and `bf_ftoa` for the free-form minimal format; its limbs are 32 bits wide as
on the 32-bit target the wrapper is built for.  Its other calls, `bf_ftoa` for
the other two formats among them, are those of `E`. -/
def with_conversions (parse_error : Int) (E : Engine bf_t Dbl) : Engine bf_t Dbl :=
  { E with
    LIMB_BITS := 32
    bf_atof := bf_atof_model parse_error
    bf_ftoa := fun a radix prec flags =>
      match flags.format with
      | .BF_FTOA_FORMAT_FREE_MIN => bf_ftoa_free_min_model parse_error a prec
      | _ => E.bf_ftoa a radix prec flags
    bf_cmp := bf_cmp_model }

/-! ## Reading decimal texts -/

/-- The numerals of the decimal grammar, in the words of section 4.2: an
optional sign, an integer part, a fractional part (a point and digits), an
optional exponent (`e` or `E`, an optional sign, digits), decimal digits only,
with at least one digit in the integer or fractional part. -/
def well_formed_decimal (l : List Char) : Prop :=
  ∃ sg ip fr ex : List Char,
    l = sg ++ (ip ++ (fr ++ ex)) ∧
    (sg = [] ∨ sg = ['+'] ∨ sg = ['-']) ∧
    (∀ c ∈ ip, c.isDigit = true) ∧
    (fr = [] ∨ ∃ fp, fr = '.' :: fp ∧ ∀ c ∈ fp, c.isDigit = true) ∧
    (∃ c, c.isDigit = true ∧ c ∈ ip ++ fr) ∧
    (ex = [] ∨ ∃ e es ed, ex = e :: (es ++ ed) ∧ (e = 'e' ∨ e = 'E') ∧
      (es = [] ∨ es = ['+'] ∨ es = ['-']) ∧ ed ≠ [] ∧ ∀ c ∈ ed, c.isDigit = true)

/-! ## The throw rules, as predicates on an outcome and the status behind it -/

/-- The rule of the wrappers that tolerate INEXACT only: the call throws exactly
when the status has a flag other than INEXACT, and returns exactly when the
status is empty or INEXACT alone. -/
def throws_iff_other_flag {α : Type} (o : Outcome α) (s : Int) : Prop :=
  (o.throws ↔ has_flag_other_than_inexact s = true) ∧
  (o.returns ↔ (s = 0 ∨ s = BF_ST_INEXACT))

/-- The rule of the division wrappers: the call returns exactly when the status
is 0, exactly INEXACT or exactly DIVIDE_ZERO, and otherwise throws
"error while dividing". -/
def returns_iff_div_status {α : Type} (o : Outcome α) (s : Int) : Prop :=
  (o.returns ↔ (s = 0 ∨ s = BF_ST_INEXACT ∨ s = BF_ST_DIVIDE_ZERO)) ∧
  (¬ o.returns → o.thrown = some "error while dividing")

/-- A status with OVERFLOW or UNDERFLOW in it makes the call throw, the engine's
value `v` staying in the output. -/
def fatal_on_range_flags {α : Type} (o : Outcome α) (s : Int) (v : α) : Prop :=
  (has_flag s BF_ST_OVERFLOW = true ∨ has_flag s BF_ST_UNDERFLOW = true) →
    (o.throws ∧ o.out = v)

/-- A status that is exactly INEXACT lets the call return, the engine's value
`v` staying in the output. -/
def ignores_inexact {α : Type} (o : Outcome α) (s : Int) (v : α) : Prop :=
  s = BF_ST_INEXACT → (o.returns ∧ o.out = v)

/-- Every non-zero status makes the call throw. -/
def throws_iff_nonzero {α : Type} (o : Outcome α) (s : Int) : Prop :=
  o.throws ↔ s ≠ 0

/-! ## Heap allocations of contexts and Numbers -/

/-- The C heap as far as the wrapper can tell: the addresses of the live
allocations, newest first, and the next address `malloc` hands out. -/
structure Heap where
  live : List Nat
  next : Nat
  deriving DecidableEq, Repr

/-- The C `malloc`: a fresh live allocation. -/
def malloc (h : Heap) : Nat × Heap := (h.next, ⟨h.next :: h.live, h.next + 1⟩)

/-- The C `free`: the allocation at `p` is live no more. -/
def free (h : Heap) (p : Nat) : Heap := ⟨h.live.erase p, h.next⟩

/-- The C `realloc(ptr, size)` as libbf uses it: a new allocation for a NULL `ptr`,
release for size 0, and otherwise the same allocation resized in place. -/
def realloc (h : Heap) (ptr : Option Nat) (size : Nat) : Option Nat × Heap :=
  match ptr with
  | none => if size = 0 then (none, h) else (some (malloc h).1, (malloc h).2)
  | some p => if size = 0 then (none, free h p) else (some p, h)

/-- The C `my_bf_realloc`: forwards to `realloc`, ignoring `opaque`. -/
def my_bf_realloc (h : Heap) (ptr : Option Nat) (size : Nat) : Option Nat × Heap :=
  realloc h ptr size

/-- Modelled from the spec: what a `bf_t` record holds of storage (`libbf.h` is
not among the sources): the context it was created against and the pointer to
its mantissa limbs, NULL while the Number has none. -/
structure bf_storage where
  ctx : Nat
  tab : Option Nat
  deriving DecidableEq, Repr

/-- Modelled from the spec: what a `bf_context_t` record holds of storage: the
mantissa storage of the constants in its cache. -/
structure bf_context_storage where
  cache : List Nat
  deriving DecidableEq, Repr

/-- The heap together with the records written into it, by address. -/
structure Memory where
  heap : Heap
  numbers : List (Nat × bf_storage)
  contexts : List (Nat × bf_context_storage)
  deriving DecidableEq, Repr

/-- Modelled from the spec: `bf_context_init` (section 4.1, `create`): a fresh
context with an empty cache, written into the record at `ctx`; it allocates
nothing. -/
def bf_context_init (M : Memory) (ctx : Nat) : Memory :=
  { M with contexts := (ctx, ⟨[]⟩) :: M.contexts }

/-- Modelled from the spec: `bf_clear_cache` (section 4.1, `clear_cache`): drops
all cached constants, releasing their storage through the allocator. -/
def bf_clear_cache (M : Memory) (ctx : Nat) : Memory :=
  match M.contexts.lookup ctx with
  | none => M
  | some c =>
    { M with
      heap := c.cache.foldl (fun h p => (my_bf_realloc h (some p) 0).2) M.heap
      contexts := (ctx, ⟨[]⟩) :: M.contexts }

/-- Modelled from the spec: `bf_context_end` (section 4.1, `destroy`): releases
what the context owns, its cache; the record itself belongs to the caller. -/
def bf_context_end (M : Memory) (ctx : Nat) : Memory := bf_clear_cache M ctx

/-- Modelled from the spec: `bf_init` (section 3, "created empty (zero-valued)
against a Context"): a zero Number without mantissa storage, written into the
record at `bf`; it allocates nothing. -/
def bf_init (M : Memory) (ctx bf : Nat) : Memory :=
  { M with numbers := (bf, ⟨ctx, none⟩) :: M.numbers }

/-- Modelled from the spec: `bf_delete` (section 3, "releasing its mantissa
storage back through the Context's allocator"): the mantissa limbs of the
Number at `bf`, if it has any, are released; nothing else is. -/
def bf_delete (M : Memory) (bf : Nat) : Memory :=
  match M.numbers.lookup bf with
  | none => M
  | some r =>
    match r.tab with
    | none => M
    | some t =>
      { M with
        heap := (my_bf_realloc M.heap (some t) 0).2
        numbers := (bf, ⟨r.ctx, none⟩) :: M.numbers }

/-- Exported `create_context`: `malloc` a context record and initialise it. -/
def create_context (M : Memory) : Nat × Memory :=
  let ctx := malloc M.heap
  (ctx.1, bf_context_init { M with heap := ctx.2 } ctx.1)

/-- Exported `clear_context_cache`: forwards to `bf_clear_cache`. -/
def clear_context_cache (M : Memory) (ctx : Nat) : Memory := bf_clear_cache M ctx

/-- Exported `destroy_context`: end the context, then `free` its record. -/
def destroy_context (M : Memory) (ctx : Nat) : Memory :=
  let M1 := bf_context_end M ctx
  { M1 with heap := free M1.heap ctx }

/-- Exported `create_bf`: `malloc` a `bf_t` record and initialise it against `ctx`. -/
def create_bf (M : Memory) (ctx : Nat) : Nat × Memory :=
  let bf := malloc M.heap
  (bf.1, bf_init { M with heap := bf.2 } ctx bf.1)

/-- Exported `destroy_bf`: `bf_delete`, and nothing more. -/
def destroy_bf (M : Memory) (bf : Nat) : Memory := bf_delete M bf

/-- An engine that answers every call taking a precision with the very
precision it was handed, in the place of the output Number; `bits` is the width
of its `limb_t`. -/
def precision_probe (bits : Nat) : Engine Nat Int :=
  { Engine.reporting 0 0 0 0 none with
    LIMB_BITS := bits
    bf_atof := fun _ _ _ prec _ => (prec, 0)
    bf_const_log2 := fun _ prec _ => (prec, 0)
    bf_const_pi := fun _ prec _ => (prec, 0)
    bf_add := fun _ _ _ prec _ => (prec, 0)
    bf_sub := fun _ _ _ prec _ => (prec, 0)
    bf_mul := fun _ _ _ prec _ => (prec, 0)
    bf_div := fun _ _ _ prec _ => (prec, 0)
    bf_rem := fun _ _ _ prec _ _ => (prec, 0)
    bf_divrem := fun _ _ _ _ prec _ _ => ((prec, prec), 0)
    bf_round := fun _ prec _ => (prec, 0)
    bf_sqrt := fun _ _ prec _ => (prec, 0)
    bf_exp := fun _ _ prec _ => (prec, 0)
    bf_log := fun _ _ prec _ => (prec, 0)
    bf_pow := fun _ _ _ prec _ => (prec, 0)
    bf_cos := fun _ _ prec _ => (prec, 0)
    bf_sin := fun _ _ prec _ => (prec, 0)
    bf_tan := fun _ _ prec _ => (prec, 0)
    bf_acos := fun _ _ prec _ => (prec, 0)
    bf_asin := fun _ _ prec _ => (prec, 0)
    bf_atan := fun _ _ prec _ => (prec, 0) }

/-! ## A wrapper, once its engine call is made -/

/-- The test of the setters on an engine answer `r`: throw `msg` unless the
status is 0. -/
def checked_nonzero {α : Type} (r : α × Int) (msg : String) : Outcome α :=
  if r.2 ≠ 0 then ⟨r.1, some msg⟩ else ⟨r.1, none⟩

/-- The test of the wrappers that tolerate INEXACT on an engine answer `r`. -/
def checked_inexact {α : Type} (r : α × Int) (msg : String) : Outcome α :=
  if r.2 ≠ 0 ∧ r.2 ≠ BF_ST_INEXACT then ⟨r.1, some msg⟩ else ⟨r.1, none⟩

/-- The test of the division wrappers on an engine answer `r`. -/
def checked_division {α : Type} (r : α × Int) (msg : String) : Outcome α :=
  if r.2 ≠ 0 ∧ r.2 ≠ BF_ST_INEXACT ∧ r.2 ≠ BF_ST_DIVIDE_ZERO then ⟨r.1, some msg⟩
  else ⟨r.1, none⟩

/-- The test of the text writers on the pointer the engine answered: throw
`msg` for NULL. -/
def checked_text (t : Option String) (msg : String) : Except String String :=
  match t with
  | none => .error msg
  | some s => .ok s

/-- The 53-bit Number nearest to one tenth, `3602879701896397 * 2^-55`. -/
def one_tenth_53 : bf_t := bf_t.fin false 3602879701896397 (-55)

/-! ## Lemmas on status words -/

theorem ldiff_sixteen_eq_zero (n : Nat) : Nat.ldiff n 16 = 0 ↔ (n = 0 ∨ n = 16) := by
  have h16 : (16 : Nat) = 2 ^ 4 := by norm_num
  constructor
  · intro h
    have hb : ∀ k, n.testBit k = true → k = 4 := by
      intro k hk
      have hl := Nat.testBit_ldiff n 16 k
      rw [h, Nat.zero_testBit, hk, h16, Nat.testBit_two_pow] at hl
      simp at hl
      omega
    by_cases h4 : n.testBit 4 = true
    · right
      apply Nat.eq_of_testBit_eq
      intro i
      rw [h16, Nat.testBit_two_pow]
      by_cases hi : 4 = i
      · subst hi; simp [h4]
      · simp only [hi, decide_False]
        cases hti : n.testBit i
        · rfl
        · exact absurd (hb i hti).symm hi
    · left
      apply Nat.eq_of_testBit_eq
      intro i
      rw [Nat.zero_testBit]
      cases hti : n.testBit i
      · rfl
      · have hi := hb i hti
        subst hi
        exact absurd hti h4
  · rintro (h | h)
    · subst h; simp [Nat.ldiff]
    · subst h
      apply Nat.eq_of_testBit_eq
      intro i
      rw [Nat.testBit_ldiff]
      simp

theorem has_flag_other_than_inexact_iff (s : Int) :
    has_flag_other_than_inexact s = true ↔ (s ≠ 0 ∧ s ≠ BF_ST_INEXACT) := by
  unfold has_flag_other_than_inexact BF_ST_INEXACT
  cases s with
  | ofNat n =>
    have h : Int.land (Int.ofNat n) (Int.not 16) = ((Nat.ldiff n 16 : Nat) : Int) := rfl
    rw [h]
    have hz := ldiff_sixteen_eq_zero n
    simp only [bne_iff_ne, ne_eq, Int.ofNat_eq_coe, Nat.cast_eq_zero, hz, not_or]
    constructor
    · rintro ⟨h0, h1⟩
      exact ⟨h0, by intro hc; apply h1; exact_mod_cast hc⟩
    · rintro ⟨h0, h1⟩
      exact ⟨h0, by intro hc; apply h1; exact_mod_cast hc⟩
  | negSucc n =>
    have h : Int.land (Int.negSucc n) (Int.not 16) = Int.negSucc (n ||| 16) := rfl
    rw [h]
    simp only [bne_iff_ne, ne_eq]
    refine ⟨fun _ => ⟨?_, ?_⟩, fun _ => ?_⟩ <;> intro hc <;> cases hc

/-- On a status made of the six flags, having a flag other than INEXACT is
having INVALID_OP, DIVIDE_ZERO, OVERFLOW, UNDERFLOW or MEM_ERROR. -/
theorem other_flag_iff_named_flag (s : Nat) (h : s < 64) :
    has_flag_other_than_inexact (s : Int) = true ↔
      (has_flag s BF_ST_INVALID_OP = true ∨ has_flag s BF_ST_DIVIDE_ZERO = true ∨
        has_flag s BF_ST_OVERFLOW = true ∨ has_flag s BF_ST_UNDERFLOW = true ∨
        has_flag s BF_ST_MEM_ERROR = true) := by
  rw [has_flag_other_than_inexact_iff]
  interval_cases s <;> decide

theorem inexact_rule {α : Type} (v : α) (ret : Int) (msg : String) :
    throws_iff_other_flag
      (if ret ≠ 0 ∧ ret ≠ BF_ST_INEXACT then (⟨v, some msg⟩ : Outcome α) else ⟨v, none⟩) ret := by
  unfold throws_iff_other_flag Outcome.throws Outcome.returns
  rw [has_flag_other_than_inexact_iff]
  by_cases h : ret ≠ 0 ∧ ret ≠ BF_ST_INEXACT
  · rw [if_pos h]
    refine ⟨⟨fun _ => h, fun _ => by simp⟩, ⟨fun hc => by simp at hc, ?_⟩⟩
    rintro (h0 | h1)
    · exact absurd h0 h.1
    · exact absurd h1 h.2
  · rw [if_neg h]
    refine ⟨⟨fun hc => absurd rfl hc, fun hc => absurd hc h⟩, ⟨fun _ => ?_, fun _ => rfl⟩⟩
    by_cases h0 : ret = 0
    · exact Or.inl h0
    · right
      by_contra h1
      exact h ⟨h0, h1⟩

theorem div_rule {α : Type} (v : α) (ret : Int) :
    returns_iff_div_status
      (if ret ≠ 0 ∧ ret ≠ BF_ST_INEXACT ∧ ret ≠ BF_ST_DIVIDE_ZERO then
        (⟨v, some "error while dividing"⟩ : Outcome α) else ⟨v, none⟩) ret := by
  unfold returns_iff_div_status Outcome.returns
  by_cases h : ret ≠ 0 ∧ ret ≠ BF_ST_INEXACT ∧ ret ≠ BF_ST_DIVIDE_ZERO
  · rw [if_pos h]
    refine ⟨⟨fun hc => by simp at hc, ?_⟩, fun _ => rfl⟩
    rintro (h0 | h1 | h2)
    · exact absurd h0 h.1
    · exact absurd h1 h.2.1
    · exact absurd h2 h.2.2
  · rw [if_neg h]
    refine ⟨⟨fun _ => ?_, fun _ => rfl⟩, fun hc => absurd rfl hc⟩
    by_contra hc
    push_neg at hc
    exact h hc

theorem has_flag_overflow_ne (s : Int) (h : has_flag s BF_ST_OVERFLOW = true) :
    s ≠ 0 ∧ s ≠ BF_ST_INEXACT ∧ s ≠ BF_ST_DIVIDE_ZERO := by
  refine ⟨?_, ?_, ?_⟩ <;> intro hc <;> subst hc <;> revert h <;> decide

theorem has_flag_underflow_ne (s : Int) (h : has_flag s BF_ST_UNDERFLOW = true) :
    s ≠ 0 ∧ s ≠ BF_ST_INEXACT ∧ s ≠ BF_ST_DIVIDE_ZERO := by
  refine ⟨?_, ?_, ?_⟩ <;> intro hc <;> subst hc <;> revert h <;> decide

theorem range_flags_ne (s : Int)
    (h : has_flag s BF_ST_OVERFLOW = true ∨ has_flag s BF_ST_UNDERFLOW = true) :
    s ≠ 0 ∧ s ≠ BF_ST_INEXACT ∧ s ≠ BF_ST_DIVIDE_ZERO :=
  h.elim (has_flag_overflow_ne s) (has_flag_underflow_ne s)

theorem fatal_rule {α : Type} (v : α) (ret : Int) (msg : String) :
    fatal_on_range_flags
      (if ret ≠ 0 ∧ ret ≠ BF_ST_INEXACT then (⟨v, some msg⟩ : Outcome α) else ⟨v, none⟩) ret v := by
  intro h
  have hn := range_flags_ne ret h
  rw [if_pos ⟨hn.1, hn.2.1⟩]
  exact ⟨by simp [Outcome.throws], rfl⟩

theorem fatal_rule_div {α : Type} (v : α) (ret : Int) (msg : String) :
    fatal_on_range_flags
      (if ret ≠ 0 ∧ ret ≠ BF_ST_INEXACT ∧ ret ≠ BF_ST_DIVIDE_ZERO then
        (⟨v, some msg⟩ : Outcome α) else ⟨v, none⟩) ret v := by
  intro h
  rw [if_pos (range_flags_ne ret h)]
  exact ⟨by simp [Outcome.throws], rfl⟩

theorem ignore_rule {α : Type} (v : α) (ret : Int) (msg : String) :
    ignores_inexact
      (if ret ≠ 0 ∧ ret ≠ BF_ST_INEXACT then (⟨v, some msg⟩ : Outcome α) else ⟨v, none⟩) ret v := by
  intro h
  rw [if_neg (fun hc => hc.2 h)]
  exact ⟨rfl, rfl⟩

theorem ignore_rule_div {α : Type} (v : α) (ret : Int) (msg : String) :
    ignores_inexact
      (if ret ≠ 0 ∧ ret ≠ BF_ST_INEXACT ∧ ret ≠ BF_ST_DIVIDE_ZERO then
        (⟨v, some msg⟩ : Outcome α) else ⟨v, none⟩) ret v := by
  intro h
  rw [if_neg (fun hc => hc.2.1 h)]
  exact ⟨rfl, rfl⟩

theorem nonzero_rule {α : Type} (v : α) (ret : Int) (msg : String) :
    throws_iff_nonzero
      (if ret ≠ 0 then (⟨v, some msg⟩ : Outcome α) else ⟨v, none⟩) ret := by
  unfold throws_iff_nonzero Outcome.throws
  by_cases h : ret ≠ 0
  · rw [if_pos h]; simp [h]
  · rw [if_neg h]; simp [h]

/-! ## The throw rules of the wrappers -/

/-- C1: each of wrapper_set_log2, wrapper_set_pi, wrapper_add, wrapper_sub,
wrapper_mul, wrapper_round, wrapper_sqrt, wrapper_exp, wrapper_log, wrapper_pow,
wrapper_cos, wrapper_sin, wrapper_tan, wrapper_acos, wrapper_asin, wrapper_atan
and to_float throws if and only if the status the engine returned has at least
one flag other than INEXACT, and returns normally exactly when that status is
empty or INEXACT alone; this for every engine, every argument and hence every
status word. -/
theorem inexact_only_wrappers_throw_iff_other_flag (E : Engine Num Dbl)
    (a b bf result : Num) (precision : Int) :
    throws_iff_other_flag (wrapper_set_log2 E bf precision)
      (E.bf_const_log2 bf (as_limb_t E.LIMB_BITS (as_uint32_t precision)) .BF_RNDN).2 ∧
    throws_iff_other_flag (wrapper_set_pi E bf precision)
      (E.bf_const_pi bf (as_limb_t E.LIMB_BITS (as_uint32_t precision)) .BF_RNDN).2 ∧
    throws_iff_other_flag (wrapper_add E a b precision result)
      (E.bf_add result a b (as_limb_t E.LIMB_BITS (as_int32_t precision)) .BF_RNDN).2 ∧
    throws_iff_other_flag (wrapper_sub E a b precision result)
      (E.bf_sub result a b (as_limb_t E.LIMB_BITS (as_int32_t precision)) .BF_RNDN).2 ∧
    throws_iff_other_flag (wrapper_mul E a b precision result)
      (E.bf_mul result a b (as_limb_t E.LIMB_BITS (as_int32_t precision)) .BF_RNDN).2 ∧
    throws_iff_other_flag (wrapper_round E bf precision)
      (E.bf_round bf (as_limb_t E.LIMB_BITS (as_int32_t precision)) .BF_RNDN).2 ∧
    throws_iff_other_flag (wrapper_sqrt E bf precision result)
      (E.bf_sqrt result bf (as_limb_t E.LIMB_BITS (as_int32_t precision)) .BF_RNDN).2 ∧
    throws_iff_other_flag (wrapper_exp E bf precision result)
      (E.bf_exp result bf (as_limb_t E.LIMB_BITS (as_int32_t precision)) .BF_RNDN).2 ∧
    throws_iff_other_flag (wrapper_log E bf precision result)
      (E.bf_log result bf (as_limb_t E.LIMB_BITS (as_int32_t precision)) .BF_RNDN).2 ∧
    throws_iff_other_flag (wrapper_pow E a b precision result)
      (E.bf_pow result a b (as_limb_t E.LIMB_BITS (as_int32_t precision)) .BF_RNDN).2 ∧
    throws_iff_other_flag (wrapper_cos E bf precision result)
      (E.bf_cos result bf (as_limb_t E.LIMB_BITS (as_int32_t precision)) .BF_RNDN).2 ∧
    throws_iff_other_flag (wrapper_sin E bf precision result)
      (E.bf_sin result bf (as_limb_t E.LIMB_BITS (as_int32_t precision)) .BF_RNDN).2 ∧
    throws_iff_other_flag (wrapper_tan E bf precision result)
      (E.bf_tan result bf (as_limb_t E.LIMB_BITS (as_int32_t precision)) .BF_RNDN).2 ∧
    throws_iff_other_flag (wrapper_acos E bf precision result)
      (E.bf_acos result bf (as_limb_t E.LIMB_BITS (as_int32_t precision)) .BF_RNDN).2 ∧
    throws_iff_other_flag (wrapper_asin E bf precision result)
      (E.bf_asin result bf (as_limb_t E.LIMB_BITS (as_int32_t precision)) .BF_RNDN).2 ∧
    throws_iff_other_flag (wrapper_atan E bf precision result)
      (E.bf_atan result bf (as_limb_t E.LIMB_BITS (as_int32_t precision)) .BF_RNDN).2 ∧
    throws_iff_other_flag (to_float E bf) (E.bf_get_float64 bf .BF_RNDN).2 :=
  ⟨inexact_rule _ _ _, inexact_rule _ _ _, inexact_rule _ _ _, inexact_rule _ _ _,
   inexact_rule _ _ _, inexact_rule _ _ _, inexact_rule _ _ _, inexact_rule _ _ _,
   inexact_rule _ _ _, inexact_rule _ _ _, inexact_rule _ _ _, inexact_rule _ _ _,
   inexact_rule _ _ _, inexact_rule _ _ _, inexact_rule _ _ _, inexact_rule _ _ _,
   inexact_rule _ _ _⟩

/-- C3: compare throws "NaN cannot be compared" if and only if the engine's
numeric comparison reports the unordered result 2; in every other case it
returns the engine's ordering unchanged, so a value compare returns is never 2. -/
theorem compare_throws_iff_unordered (E : Engine Num Dbl) (a b : Num) :
    (compare E a b = .error "NaN cannot be compared" ↔ E.bf_cmp a b = 2) ∧
    (E.bf_cmp a b ≠ 2 → compare E a b = .ok (E.bf_cmp a b)) ∧
    (∀ r, compare E a b = .ok r → r = E.bf_cmp a b ∧ r ≠ 2) := by
  unfold compare
  by_cases h : E.bf_cmp a b = 2
  · rw [if_pos h]
    exact ⟨⟨fun _ => h, fun _ => rfl⟩, fun hc => absurd h hc, fun r hr => by cases hr⟩
  · rw [if_neg h]
    refine ⟨⟨fun hc => (by cases hc), fun hc => absurd hc h⟩, fun _ => rfl, ?_⟩
    intro r hr
    cases hr
    exact ⟨rfl, h⟩

/-- C4: each of wrapper_div, wrapper_rem and wrapper_divrem returns normally if
and only if the engine status is 0, exactly INEXACT or exactly DIVIDE_ZERO, and
otherwise throws "error while dividing".  Hence a division the engine answers
with status DIVIDE_ZERO (positive finite by +0) returns normally with the
engine's value left in the result, and one it answers with INVALID_OP (0/0)
throws "error while dividing". -/
theorem div_wrappers_return_iff (E : Engine Num Dbl) (a b result quotient remainder : Num)
    (precision : Int) :
    returns_iff_div_status (wrapper_div E a b precision result)
      (E.bf_div result a b (as_limb_t E.LIMB_BITS (as_int32_t precision)) .BF_RNDN).2 ∧
    returns_iff_div_status (wrapper_rem E a b precision result)
      (E.bf_rem result a b (as_limb_t E.LIMB_BITS (as_int32_t precision)) .BF_RNDN .BF_RNDN).2 ∧
    returns_iff_div_status (wrapper_divrem E a b precision quotient remainder)
      (E.bf_divrem quotient remainder a b
        (as_limb_t E.LIMB_BITS (as_int32_t precision)) .BF_RNDN .BF_RNDN).2 ∧
    ((E.bf_div result a b (as_limb_t E.LIMB_BITS (as_int32_t precision)) .BF_RNDN).2
        = BF_ST_DIVIDE_ZERO →
      wrapper_div E a b precision result =
        ⟨(E.bf_div result a b (as_limb_t E.LIMB_BITS (as_int32_t precision)) .BF_RNDN).1,
          none⟩) ∧
    ((E.bf_div result a b (as_limb_t E.LIMB_BITS (as_int32_t precision)) .BF_RNDN).2
        = BF_ST_INVALID_OP →
      wrapper_div E a b precision result =
        ⟨(E.bf_div result a b (as_limb_t E.LIMB_BITS (as_int32_t precision)) .BF_RNDN).1,
          some "error while dividing"⟩) := by
  refine ⟨div_rule _ _, div_rule _ _, div_rule _ _, ?_, ?_⟩
  · intro h
    simp only [wrapper_div, h]
    rfl
  · intro h
    simp only [wrapper_div, h]
    rfl

/-- C4 at a concrete division: the engine answers 1 / +0 with +infinity and
status DIVIDE_ZERO, and wrapper_div returns normally with +infinity in the
result; it answers 0 / 0 with NaN and INVALID_OP, and wrapper_div throws. -/
theorem div_wrappers_return_iff_witness :
    wrapper_div (Engine.reporting BF_ST_DIVIDE_ZERO (bf_t.inf false) (0 : Int) 0 none)
        (bf_t.fin false 1 0) (bf_t.zero false) 64 (bf_t.zero false)
      = ⟨bf_t.inf false, none⟩ ∧
    wrapper_div (Engine.reporting BF_ST_INVALID_OP bf_t.nan (0 : Int) 0 none)
        (bf_t.zero false) (bf_t.zero false) 64 (bf_t.zero false)
      = ⟨bf_t.nan, some "error while dividing"⟩ :=
  ⟨(div_wrappers_return_iff (Engine.reporting BF_ST_DIVIDE_ZERO (bf_t.inf false) (0 : Int) 0 none)
      (bf_t.fin false 1 0) (bf_t.zero false) (bf_t.zero false) (bf_t.zero false)
      (bf_t.zero false) 64).2.2.2.1 rfl,
   (div_wrappers_return_iff (Engine.reporting BF_ST_INVALID_OP bf_t.nan (0 : Int) 0 none)
      (bf_t.zero false) (bf_t.zero false) (bf_t.zero false) (bf_t.zero false)
      (bf_t.zero false) 64).2.2.2.2 rfl⟩

/-- C6, as stated, fails: when the engine answers a multiplication with
+infinity and the status OVERFLOW together with INEXACT, wrapper_mul throws
"error while multiplying"; when it answers an exponential with zero and the
status UNDERFLOW together with INEXACT, wrapper_exp throws. -/
theorem overflow_status_is_fatal_counterexample :
    has_flag (BF_ST_OVERFLOW + BF_ST_INEXACT) BF_ST_OVERFLOW = true ∧
    wrapper_mul (Engine.reporting (BF_ST_OVERFLOW + BF_ST_INEXACT) (bf_t.inf false) (0 : Int) 0 none)
        (bf_t.fin false 1 268435455) (bf_t.fin false 1 268435455) 64 (bf_t.zero false)
      = ⟨bf_t.inf false, some "error while multiplying"⟩ ∧
    has_flag (BF_ST_UNDERFLOW + BF_ST_INEXACT) BF_ST_UNDERFLOW = true ∧
    wrapper_exp (Engine.reporting (BF_ST_UNDERFLOW + BF_ST_INEXACT) (bf_t.zero false) (0 : Int) 0 none)
        (bf_t.fin true 1 268435455) 64 (bf_t.zero false)
      = ⟨bf_t.zero false, some "error while exponentiating"⟩ := by
  decide

/-- C6, amended: in every arithmetic and transcendental wrapper an engine
status containing OVERFLOW or UNDERFLOW, alone or together with INEXACT, is
fatal: the wrapper throws, the value the engine wrote (infinity or zero) staying
in the output Number. -/
theorem range_flags_are_fatal (E : Engine Num Dbl)
    (a b bf result quotient remainder : Num) (precision : Int) :
    fatal_on_range_flags (wrapper_add E a b precision result)
      (E.bf_add result a b (as_limb_t E.LIMB_BITS (as_int32_t precision)) .BF_RNDN).2
      (E.bf_add result a b (as_limb_t E.LIMB_BITS (as_int32_t precision)) .BF_RNDN).1 ∧
    fatal_on_range_flags (wrapper_sub E a b precision result)
      (E.bf_sub result a b (as_limb_t E.LIMB_BITS (as_int32_t precision)) .BF_RNDN).2
      (E.bf_sub result a b (as_limb_t E.LIMB_BITS (as_int32_t precision)) .BF_RNDN).1 ∧
    fatal_on_range_flags (wrapper_mul E a b precision result)
      (E.bf_mul result a b (as_limb_t E.LIMB_BITS (as_int32_t precision)) .BF_RNDN).2
      (E.bf_mul result a b (as_limb_t E.LIMB_BITS (as_int32_t precision)) .BF_RNDN).1 ∧
    fatal_on_range_flags (wrapper_div E a b precision result)
      (E.bf_div result a b (as_limb_t E.LIMB_BITS (as_int32_t precision)) .BF_RNDN).2
      (E.bf_div result a b (as_limb_t E.LIMB_BITS (as_int32_t precision)) .BF_RNDN).1 ∧
    fatal_on_range_flags (wrapper_rem E a b precision result)
      (E.bf_rem result a b (as_limb_t E.LIMB_BITS (as_int32_t precision)) .BF_RNDN .BF_RNDN).2
      (E.bf_rem result a b (as_limb_t E.LIMB_BITS (as_int32_t precision)) .BF_RNDN .BF_RNDN).1 ∧
    fatal_on_range_flags (wrapper_divrem E a b precision quotient remainder)
      (E.bf_divrem quotient remainder a b
        (as_limb_t E.LIMB_BITS (as_int32_t precision)) .BF_RNDN .BF_RNDN).2
      (E.bf_divrem quotient remainder a b
        (as_limb_t E.LIMB_BITS (as_int32_t precision)) .BF_RNDN .BF_RNDN).1 ∧
    fatal_on_range_flags (wrapper_round E bf precision)
      (E.bf_round bf (as_limb_t E.LIMB_BITS (as_int32_t precision)) .BF_RNDN).2
      (E.bf_round bf (as_limb_t E.LIMB_BITS (as_int32_t precision)) .BF_RNDN).1 ∧
    fatal_on_range_flags (wrapper_sqrt E bf precision result)
      (E.bf_sqrt result bf (as_limb_t E.LIMB_BITS (as_int32_t precision)) .BF_RNDN).2
      (E.bf_sqrt result bf (as_limb_t E.LIMB_BITS (as_int32_t precision)) .BF_RNDN).1 ∧
    fatal_on_range_flags (wrapper_exp E bf precision result)
      (E.bf_exp result bf (as_limb_t E.LIMB_BITS (as_int32_t precision)) .BF_RNDN).2
      (E.bf_exp result bf (as_limb_t E.LIMB_BITS (as_int32_t precision)) .BF_RNDN).1 ∧
    fatal_on_range_flags (wrapper_log E bf precision result)
      (E.bf_log result bf (as_limb_t E.LIMB_BITS (as_int32_t precision)) .BF_RNDN).2
      (E.bf_log result bf (as_limb_t E.LIMB_BITS (as_int32_t precision)) .BF_RNDN).1 ∧
    fatal_on_range_flags (wrapper_pow E a b precision result)
      (E.bf_pow result a b (as_limb_t E.LIMB_BITS (as_int32_t precision)) .BF_RNDN).2
      (E.bf_pow result a b (as_limb_t E.LIMB_BITS (as_int32_t precision)) .BF_RNDN).1 ∧
    fatal_on_range_flags (wrapper_cos E bf precision result)
      (E.bf_cos result bf (as_limb_t E.LIMB_BITS (as_int32_t precision)) .BF_RNDN).2
      (E.bf_cos result bf (as_limb_t E.LIMB_BITS (as_int32_t precision)) .BF_RNDN).1 ∧
    fatal_on_range_flags (wrapper_sin E bf precision result)
      (E.bf_sin result bf (as_limb_t E.LIMB_BITS (as_int32_t precision)) .BF_RNDN).2
      (E.bf_sin result bf (as_limb_t E.LIMB_BITS (as_int32_t precision)) .BF_RNDN).1 ∧
    fatal_on_range_flags (wrapper_tan E bf precision result)
      (E.bf_tan result bf (as_limb_t E.LIMB_BITS (as_int32_t precision)) .BF_RNDN).2
      (E.bf_tan result bf (as_limb_t E.LIMB_BITS (as_int32_t precision)) .BF_RNDN).1 ∧
    fatal_on_range_flags (wrapper_acos E bf precision result)
      (E.bf_acos result bf (as_limb_t E.LIMB_BITS (as_int32_t precision)) .BF_RNDN).2
      (E.bf_acos result bf (as_limb_t E.LIMB_BITS (as_int32_t precision)) .BF_RNDN).1 ∧
    fatal_on_range_flags (wrapper_asin E bf precision result)
      (E.bf_asin result bf (as_limb_t E.LIMB_BITS (as_int32_t precision)) .BF_RNDN).2
      (E.bf_asin result bf (as_limb_t E.LIMB_BITS (as_int32_t precision)) .BF_RNDN).1 ∧
    fatal_on_range_flags (wrapper_atan E bf precision result)
      (E.bf_atan result bf (as_limb_t E.LIMB_BITS (as_int32_t precision)) .BF_RNDN).2
      (E.bf_atan result bf (as_limb_t E.LIMB_BITS (as_int32_t precision)) .BF_RNDN).1 :=
  ⟨fatal_rule _ _ _, fatal_rule _ _ _, fatal_rule _ _ _, fatal_rule_div _ _ _,
   fatal_rule_div _ _ _, fatal_rule_div _ _ _, fatal_rule _ _ _, fatal_rule _ _ _,
   fatal_rule _ _ _, fatal_rule _ _ _, fatal_rule _ _ _, fatal_rule _ _ _,
   fatal_rule _ _ _, fatal_rule _ _ _, fatal_rule _ _ _, fatal_rule _ _ _,
   fatal_rule _ _ _⟩

/-- In every exported operation whose status check lets INEXACT through
(wrapper_set_log2, wrapper_set_pi, the arithmetic, division, rounding and
transcendental wrappers and to_float) an engine status that is exactly INEXACT
is ignored: the call returns normally with the engine's value in the output;
set_f64 and set_value throw exactly on a non-zero engine status. -/
theorem inexact_tolerance_of_wrappers (E : Engine Num Dbl)
    (a b bf result quotient remainder : Num) (value : Dbl) (precision : Int) :
    ignores_inexact (wrapper_set_log2 E bf precision)
      (E.bf_const_log2 bf (as_limb_t E.LIMB_BITS (as_uint32_t precision)) .BF_RNDN).2
      (E.bf_const_log2 bf (as_limb_t E.LIMB_BITS (as_uint32_t precision)) .BF_RNDN).1 ∧
    ignores_inexact (wrapper_set_pi E bf precision)
      (E.bf_const_pi bf (as_limb_t E.LIMB_BITS (as_uint32_t precision)) .BF_RNDN).2
      (E.bf_const_pi bf (as_limb_t E.LIMB_BITS (as_uint32_t precision)) .BF_RNDN).1 ∧
    ignores_inexact (wrapper_add E a b precision result)
      (E.bf_add result a b (as_limb_t E.LIMB_BITS (as_int32_t precision)) .BF_RNDN).2
      (E.bf_add result a b (as_limb_t E.LIMB_BITS (as_int32_t precision)) .BF_RNDN).1 ∧
    ignores_inexact (wrapper_sub E a b precision result)
      (E.bf_sub result a b (as_limb_t E.LIMB_BITS (as_int32_t precision)) .BF_RNDN).2
      (E.bf_sub result a b (as_limb_t E.LIMB_BITS (as_int32_t precision)) .BF_RNDN).1 ∧
    ignores_inexact (wrapper_mul E a b precision result)
      (E.bf_mul result a b (as_limb_t E.LIMB_BITS (as_int32_t precision)) .BF_RNDN).2
      (E.bf_mul result a b (as_limb_t E.LIMB_BITS (as_int32_t precision)) .BF_RNDN).1 ∧
    ignores_inexact (wrapper_div E a b precision result)
      (E.bf_div result a b (as_limb_t E.LIMB_BITS (as_int32_t precision)) .BF_RNDN).2
      (E.bf_div result a b (as_limb_t E.LIMB_BITS (as_int32_t precision)) .BF_RNDN).1 ∧
    ignores_inexact (wrapper_rem E a b precision result)
      (E.bf_rem result a b (as_limb_t E.LIMB_BITS (as_int32_t precision)) .BF_RNDN .BF_RNDN).2
      (E.bf_rem result a b (as_limb_t E.LIMB_BITS (as_int32_t precision)) .BF_RNDN .BF_RNDN).1 ∧
    ignores_inexact (wrapper_divrem E a b precision quotient remainder)
      (E.bf_divrem quotient remainder a b
        (as_limb_t E.LIMB_BITS (as_int32_t precision)) .BF_RNDN .BF_RNDN).2
      (E.bf_divrem quotient remainder a b
        (as_limb_t E.LIMB_BITS (as_int32_t precision)) .BF_RNDN .BF_RNDN).1 ∧
    ignores_inexact (wrapper_round E bf precision)
      (E.bf_round bf (as_limb_t E.LIMB_BITS (as_int32_t precision)) .BF_RNDN).2
      (E.bf_round bf (as_limb_t E.LIMB_BITS (as_int32_t precision)) .BF_RNDN).1 ∧
    ignores_inexact (wrapper_sqrt E bf precision result)
      (E.bf_sqrt result bf (as_limb_t E.LIMB_BITS (as_int32_t precision)) .BF_RNDN).2
      (E.bf_sqrt result bf (as_limb_t E.LIMB_BITS (as_int32_t precision)) .BF_RNDN).1 ∧
    ignores_inexact (wrapper_exp E bf precision result)
      (E.bf_exp result bf (as_limb_t E.LIMB_BITS (as_int32_t precision)) .BF_RNDN).2
      (E.bf_exp result bf (as_limb_t E.LIMB_BITS (as_int32_t precision)) .BF_RNDN).1 ∧
    ignores_inexact (wrapper_log E bf precision result)
      (E.bf_log result bf (as_limb_t E.LIMB_BITS (as_int32_t precision)) .BF_RNDN).2
      (E.bf_log result bf (as_limb_t E.LIMB_BITS (as_int32_t precision)) .BF_RNDN).1 ∧
    ignores_inexact (wrapper_pow E a b precision result)
      (E.bf_pow result a b (as_limb_t E.LIMB_BITS (as_int32_t precision)) .BF_RNDN).2
      (E.bf_pow result a b (as_limb_t E.LIMB_BITS (as_int32_t precision)) .BF_RNDN).1 ∧
    ignores_inexact (wrapper_cos E bf precision result)
      (E.bf_cos result bf (as_limb_t E.LIMB_BITS (as_int32_t precision)) .BF_RNDN).2
      (E.bf_cos result bf (as_limb_t E.LIMB_BITS (as_int32_t precision)) .BF_RNDN).1 ∧
    ignores_inexact (wrapper_sin E bf precision result)
      (E.bf_sin result bf (as_limb_t E.LIMB_BITS (as_int32_t precision)) .BF_RNDN).2
      (E.bf_sin result bf (as_limb_t E.LIMB_BITS (as_int32_t precision)) .BF_RNDN).1 ∧
    ignores_inexact (wrapper_tan E bf precision result)
      (E.bf_tan result bf (as_limb_t E.LIMB_BITS (as_int32_t precision)) .BF_RNDN).2
      (E.bf_tan result bf (as_limb_t E.LIMB_BITS (as_int32_t precision)) .BF_RNDN).1 ∧
    ignores_inexact (wrapper_acos E bf precision result)
      (E.bf_acos result bf (as_limb_t E.LIMB_BITS (as_int32_t precision)) .BF_RNDN).2
      (E.bf_acos result bf (as_limb_t E.LIMB_BITS (as_int32_t precision)) .BF_RNDN).1 ∧
    ignores_inexact (wrapper_asin E bf precision result)
      (E.bf_asin result bf (as_limb_t E.LIMB_BITS (as_int32_t precision)) .BF_RNDN).2
      (E.bf_asin result bf (as_limb_t E.LIMB_BITS (as_int32_t precision)) .BF_RNDN).1 ∧
    ignores_inexact (wrapper_atan E bf precision result)
      (E.bf_atan result bf (as_limb_t E.LIMB_BITS (as_int32_t precision)) .BF_RNDN).2
      (E.bf_atan result bf (as_limb_t E.LIMB_BITS (as_int32_t precision)) .BF_RNDN).1 ∧
    ignores_inexact (to_float E bf) (E.bf_get_float64 bf .BF_RNDN).2
      (E.bf_get_float64 bf .BF_RNDN).1 ∧
    throws_iff_nonzero (set_f64 E bf value) (E.bf_set_float64 bf value).2 ∧
    throws_iff_nonzero (set_value E bf a) (E.bf_set bf a).2 :=
  ⟨ignore_rule _ _ _,
   ignore_rule _ _ _,
   ignore_rule _ _ _,
   ignore_rule _ _ _,
   ignore_rule _ _ _,
   ignore_rule_div _ _ _,
   ignore_rule_div _ _ _,
   ignore_rule_div _ _ _,
   ignore_rule _ _ _,
   ignore_rule _ _ _,
   ignore_rule _ _ _,
   ignore_rule _ _ _,
   ignore_rule _ _ _,
   ignore_rule _ _ _,
   ignore_rule _ _ _,
   ignore_rule _ _ _,
   ignore_rule _ _ _,
   ignore_rule _ _ _,
   ignore_rule _ _ _,
   ignore_rule _ _ _,
   nonzero_rule _ _ _,
   nonzero_rule _ _ _⟩

/-! ## The decimal grammar and its parser -/

theorem isDigit_ne_of {c d : Char} (hc : c.isDigit = true) (hd : d.isDigit = false) : c ≠ d := by
  intro h; subst h; rw [hc] at hd; cases hd

theorem span_digits_spec (l : List Char) :
    l = (span_digits l).1 ++ (span_digits l).2 ∧ ∀ c ∈ (span_digits l).1, c.isDigit = true := by
  induction l with
  | nil => simp [span_digits]
  | cons c t ih =>
    unfold span_digits
    by_cases h : c.isDigit = true
    · rw [if_pos h]
      refine ⟨by simp only [List.cons_append]; rw [← ih.1], ?_⟩
      intro d hd
      rcases List.mem_cons.mp hd with hd | hd
      · rw [hd]; exact h
      · exact ih.2 d hd
    · rw [if_neg h]
      simp

theorem span_digits_append (d r : List Char) (hd : ∀ c ∈ d, c.isDigit = true)
    (hr : r = [] ∨ ∃ c t, r = c :: t ∧ c.isDigit = false) :
    span_digits (d ++ r) = (d, r) := by
  induction d with
  | nil =>
    rcases hr with hr | ⟨c, t, hr, hc⟩
    · subst hr; rfl
    · subst hr
      simp [span_digits, hc]
  | cons c t ih =>
    have hc : c.isDigit = true := hd c (List.mem_cons_self _ _)
    have ht := ih (fun x hx => hd x (List.mem_cons_of_mem _ hx))
    rw [List.cons_append, span_digits, if_pos hc, ht]

theorem strip_sign_spec (l : List Char) :
    ∃ sg, l = sg ++ (strip_sign l).2 ∧ (sg = [] ∨ sg = ['+'] ∨ sg = ['-']) := by
  cases l with
  | nil => exact ⟨[], rfl, Or.inl rfl⟩
  | cons c t =>
    by_cases h1 : c = '-'
    · exact ⟨['-'], by simp [strip_sign, h1], Or.inr (Or.inr rfl)⟩
    · by_cases h2 : c = '+'
      · exact ⟨['+'], by simp [strip_sign, h2], Or.inr (Or.inl rfl)⟩
      · exact ⟨[], by simp [strip_sign, h1, h2], Or.inl rfl⟩

theorem strip_sign_append (sg r : List Char) (hs : sg = [] ∨ sg = ['+'] ∨ sg = ['-'])
    (hr : r = [] ∨ ∃ c t, r = c :: t ∧ c ≠ '-' ∧ c ≠ '+') :
    strip_sign (sg ++ r) = (decide (sg = ['-']), r) := by
  rcases hs with hs | hs | hs
  · subst hs
    rcases hr with hr | ⟨c, t, hr, h1, h2⟩
    · subst hr; rfl
    · subst hr
      simp [strip_sign, h1, h2]
  · subst hs; rfl
  · subst hs; rfl

theorem span_fraction_spec (l : List Char) :
    ∃ fr, l = fr ++ (span_fraction l).2 ∧
      (fr = [] ∨ fr = '.' :: (span_fraction l).1) ∧
      (fr = [] → (span_fraction l).1 = []) ∧
      ∀ c ∈ (span_fraction l).1, c.isDigit = true := by
  cases l with
  | nil => exact ⟨[], rfl, Or.inl rfl, fun _ => rfl, by simp [span_fraction]⟩
  | cons c t =>
    by_cases h : c = '.'
    · have hs : span_fraction (c :: t) = span_digits t := by simp [span_fraction, h]
      rw [hs]
      refine ⟨'.' :: (span_digits t).1, ?_, Or.inr rfl, fun hc => (by cases hc),
        (span_digits_spec t).2⟩
      rw [h, List.cons_append, ← (span_digits_spec t).1]
    · have hs : span_fraction (c :: t) = ([], c :: t) := by simp [span_fraction, h]
      rw [hs]
      exact ⟨[], rfl, Or.inl rfl, fun _ => rfl, by simp⟩

theorem parse_exponent_spec (l : List Char) (h : parse_exponent l ≠ none) :
    l = [] ∨ ∃ e es ed, l = e :: (es ++ ed) ∧ (e = 'e' ∨ e = 'E') ∧
      (es = [] ∨ es = ['+'] ∨ es = ['-']) ∧ ed ≠ [] ∧ ∀ c ∈ ed, c.isDigit = true := by
  cases l with
  | nil => exact Or.inl rfl
  | cons c t =>
    right
    rw [parse_exponent] at h
    by_cases he : c = 'e' ∨ c = 'E'
    · rw [if_pos he] at h
      by_cases hd : (span_digits (strip_sign t).2).1 ≠ [] ∧ (span_digits (strip_sign t).2).2 = []
      · obtain ⟨sg, hsg, hsg2⟩ := strip_sign_spec t
        have hsp := span_digits_spec (strip_sign t).2
        refine ⟨c, sg, (span_digits (strip_sign t).2).1, ?_, he, hsg2, hd.1, hsp.2⟩
        have h2 : (strip_sign t).2 = (span_digits (strip_sign t).2).1 := by
          have := hsp.1
          rw [hd.2, List.append_nil] at this
          exact this
        rw [← h2, ← hsg]
      · rw [if_neg hd] at h
        exact absurd rfl h
    · rw [if_neg he] at h
      exact absurd rfl h

/-- Soundness of the parser: a text it accepts is a well-formed numeral. -/
theorem parse_decimal_sound (l : List Char) (h : parse_decimal l ≠ none) :
    well_formed_decimal l := by
  unfold parse_decimal at h
  simp only at h
  by_cases hd : (span_digits (strip_sign l).2).1 = [] ∧
      (span_fraction (span_digits (strip_sign l).2).2).1 = []
  · rw [if_pos hd] at h
    exact absurd rfl h
  · rw [if_neg hd] at h
    have hex : parse_exponent (span_fraction (span_digits (strip_sign l).2).2).2 ≠ none := by
      intro hc
      rw [hc] at h
      exact h rfl
    obtain ⟨sg, hsg, hsg2⟩ := strip_sign_spec l
    have hip := span_digits_spec (strip_sign l).2
    obtain ⟨fr, hfr, hfr2, hfr3, hfr4⟩ := span_fraction_spec (span_digits (strip_sign l).2).2
    refine ⟨sg, (span_digits (strip_sign l).2).1, fr,
      (span_fraction (span_digits (strip_sign l).2).2).2, ?_, hsg2, hip.2, ?_, ?_,
      parse_exponent_spec _ hex⟩
    · rw [← hfr, ← hip.1, ← hsg]
    · rcases hfr2 with hfr2 | hfr2
      · exact Or.inl hfr2
      · exact Or.inr ⟨_, hfr2, hfr4⟩
    · by_cases hi : (span_digits (strip_sign l).2).1 = []
      · have hf : (span_fraction (span_digits (strip_sign l).2).2).1 ≠ [] := fun hc => hd ⟨hi, hc⟩
        obtain ⟨c, hc⟩ := List.exists_mem_of_ne_nil _ hf
        refine ⟨c, hfr4 c hc, List.mem_append_right _ ?_⟩
        rcases hfr2 with hfr2 | hfr2
        · exact absurd (hfr3 hfr2) hf
        · rw [hfr2]; exact List.mem_cons_of_mem _ hc
      · obtain ⟨c, hc⟩ := List.exists_mem_of_ne_nil _ hi
        exact ⟨c, hip.2 c hc, List.mem_append_left _ hc⟩

theorem head_digit_not_sign (r : List Char)
    (h : ∃ c t, r = c :: t ∧ (c.isDigit = true ∨ c = '.')) :
    r = [] ∨ ∃ c t, r = c :: t ∧ c ≠ '-' ∧ c ≠ '+' := by
  obtain ⟨c, t, hr, hc⟩ := h
  refine Or.inr ⟨c, t, hr, ?_⟩
  rcases hc with hc | hc
  · exact ⟨isDigit_ne_of hc (by decide), isDigit_ne_of hc (by decide)⟩
  · subst hc; exact ⟨by decide, by decide⟩

theorem exponent_head_not_digit (ex : List Char)
    (hex : ex = [] ∨ ∃ e es ed, ex = e :: (es ++ ed) ∧ (e = 'e' ∨ e = 'E') ∧
      (es = [] ∨ es = ['+'] ∨ es = ['-']) ∧ ed ≠ [] ∧ ∀ c ∈ ed, c.isDigit = true) :
    ex = [] ∨ ∃ c t, ex = c :: t ∧ c.isDigit = false ∧ c ≠ '.' := by
  rcases hex with hex | ⟨e, es, ed, hex, he, _⟩
  · exact Or.inl hex
  · refine Or.inr ⟨e, es ++ ed, hex, ?_⟩
    rcases he with he | he <;> subst he <;> exact ⟨by decide, by decide⟩

theorem parse_exponent_complete (ex : List Char)
    (hex : ex = [] ∨ ∃ e es ed, ex = e :: (es ++ ed) ∧ (e = 'e' ∨ e = 'E') ∧
      (es = [] ∨ es = ['+'] ∨ es = ['-']) ∧ ed ≠ [] ∧ ∀ c ∈ ed, c.isDigit = true) :
    parse_exponent ex ≠ none := by
  rcases hex with hex | ⟨e, es, ed, hex, he, hes, hed, hdig⟩
  · subst hex; simp [parse_exponent]
  · subst hex
    obtain ⟨c, t, hct⟩ := List.exists_cons_of_ne_nil hed
    have hc : c.isDigit = true := hdig c (by rw [hct]; exact List.mem_cons_self _ _)
    have hs : strip_sign (es ++ ed) = (decide (es = ['-']), ed) :=
      strip_sign_append es ed hes (head_digit_not_sign ed ⟨c, t, hct, Or.inl hc⟩)
    have hsp : span_digits ed = (ed, []) := by
      have := span_digits_append ed [] hdig (Or.inl rfl)
      rwa [List.append_nil] at this
    rw [parse_exponent, if_pos he, hs]
    simp only [hsp]
    rw [if_pos ⟨hed, trivial⟩]
    simp

/-- Completeness of the parser: it accepts every well-formed numeral. -/
theorem parse_decimal_complete (l : List Char) (h : well_formed_decimal l) :
    parse_decimal l ≠ none := by
  obtain ⟨sg, ip, fr, ex, hl, hsg, hip, hfr, ⟨d, hd, hdmem⟩, hex⟩ := h
  subst hl
  have hexh := exponent_head_not_digit ex hex
  -- the text after the sign starts with a digit or with the point
  have hrest : ∃ c t, ip ++ (fr ++ ex) = c :: t ∧ (c.isDigit = true ∨ c = '.') := by
    cases ip with
    | cons c t => exact ⟨c, t ++ (fr ++ ex), rfl, Or.inl (hip c (List.mem_cons_self _ _))⟩
    | nil =>
      rcases hfr with hfr | ⟨fp, hfr, _⟩
      · subst hfr; simp at hdmem
      · subst hfr; exact ⟨'.', fp ++ ex, rfl, Or.inr rfl⟩
  have h1 : strip_sign (sg ++ (ip ++ (fr ++ ex))) = (decide (sg = ['-']), ip ++ (fr ++ ex)) :=
    strip_sign_append sg _ hsg (head_digit_not_sign _ hrest)
  have h2 : span_digits (ip ++ (fr ++ ex)) = (ip, fr ++ ex) := by
    apply span_digits_append ip _ hip
    rcases hfr with hfr | ⟨fp, hfr, _⟩
    · subst hfr
      rcases hexh with hexh | ⟨c, t, hc, hcd, _⟩
      · exact Or.inl (by simp [hexh])
      · exact Or.inr ⟨c, t, by simp [hc], hcd⟩
    · subst hfr
      exact Or.inr ⟨'.', fp ++ ex, rfl, by decide⟩
  have h3 : ∃ fp, span_fraction (fr ++ ex) = (fp, ex) ∧ (fr = [] ∨ fr = '.' :: fp) := by
    rcases hfr with hfr | ⟨fp, hfr, hfp⟩
    · subst hfr
      refine ⟨[], ?_, Or.inl rfl⟩
      rcases hexh with hexh | ⟨c, t, hc, _, hcp⟩
      · subst hexh; rfl
      · subst hc; simp [span_fraction, hcp]
    · subst hfr
      refine ⟨fp, ?_, Or.inr rfl⟩
      have := span_digits_append fp ex hfp
        (hexh.imp id (fun ⟨c, t, hc, hcd, _⟩ => ⟨c, t, hc, hcd⟩))
      simpa [span_fraction] using this
  obtain ⟨fp, h3, hfp⟩ := h3
  unfold parse_decimal
  simp only [h1, h2, h3]
  have hne : ¬ (ip = [] ∧ fp = []) := by
    rintro ⟨hi, hf⟩
    subst hi hf
    rcases hfp with hfp | hfp
    · subst hfp; simp at hdmem
    · subst hfp
      simp only [List.nil_append, List.mem_singleton] at hdmem
      subst hdmem
      revert hd; decide
  rw [if_neg hne]
  have := parse_exponent_complete ex hex
  cases hpe : parse_exponent ex with
  | none => exact absurd hpe this
  | some v => simp

/-- The parser fails exactly on the texts that are not well-formed numerals. -/
theorem parse_decimal_eq_none_iff (l : List Char) :
    parse_decimal l = none ↔ ¬ well_formed_decimal l := by
  constructor
  · intro h hw
    exact parse_decimal_complete l hw h
  · intro h
    by_contra hc
    exact h (parse_decimal_sound l hc)
/-! ## The digit search and the integer conversions -/

theorem ndigits_aux_spec (f v : Nat) (h : v ≤ f) :
    1 ≤ ndigits_aux f v ∧ v < 10 ^ ndigits_aux f v ∧
      (v ≠ 0 → 10 ^ (ndigits_aux f v - 1) ≤ v) := by
  induction f generalizing v with
  | zero =>
    have hv : v = 0 := Nat.le_zero.mp h
    subst hv
    simp [ndigits_aux]
  | succ f ih =>
    unfold ndigits_aux
    by_cases hlt : v < 10
    · rw [if_pos hlt]
      refine ⟨le_refl _, by simpa using hlt, fun hv => ?_⟩
      simp only [Nat.sub_self, pow_zero]
      omega
    · rw [if_neg hlt]
      have hle : v / 10 ≤ f := by omega
      obtain ⟨h1, h2, h3⟩ := ih (v / 10) hle
      refine ⟨by omega, ?_, fun _ => ?_⟩
      · have : 10 ^ (1 + ndigits_aux f (v / 10)) = 10 * 10 ^ ndigits_aux f (v / 10) := by
          rw [pow_add, pow_one]
        rw [this]
        omega
      · have hne : v / 10 ≠ 0 := by omega
        have h4 := h3 hne
        have : 1 + ndigits_aux f (v / 10) - 1 = (ndigits_aux f (v / 10) - 1) + 1 := by omega
        rw [this, pow_succ]
        omega

theorem ndigits_spec (v : Nat) :
    1 ≤ ndigits v ∧ v < 10 ^ ndigits v ∧ (v ≠ 0 → 10 ^ (ndigits v - 1) ≤ v) :=
  ndigits_aux_spec v v (le_refl v)

theorem round_half_even_bounds (q low half : Nat) (sticky : Bool) :
    q ≤ round_half_even q low half sticky ∧ round_half_even q low half sticky ≤ q + 1 := by
  unfold round_half_even
  split <;> omega

/-- The digits `significant` keeps are a number of exactly `n` decimal digits. -/
theorem significant_range (num den n : Nat) (hnum : 0 < num) (hden : 0 < den) (hn : 1 ≤ n) :
    10 ^ (n - 1) ≤ (significant num den n).1 ∧ (significant num den n).1 < 10 ^ n := by
  have hK := ndigits_spec den
  have hW : 10 ^ n ≤ num * 10 ^ (n + ndigits den) / den := by
    rw [Nat.le_div_iff_mul_le hden, pow_add]
    calc 10 ^ n * den ≤ 10 ^ n * 10 ^ ndigits den := Nat.mul_le_mul_left _ (le_of_lt hK.2.1)
      _ ≤ num * (10 ^ n * 10 ^ ndigits den) := Nat.le_mul_of_pos_left _ hnum
  have hD := ndigits_spec (num * 10 ^ (n + ndigits den) / den)
  have hWpos : num * 10 ^ (n + ndigits den) / den ≠ 0 := by
    have : 0 < 10 ^ n := by positivity
    omega
  have hDn : n < ndigits (num * 10 ^ (n + ndigits den) / den) := by
    by_contra hc
    push_neg at hc
    have := Nat.pow_le_pow_right (show 0 < 10 by norm_num) hc
    omega
  have hq1 : 10 ^ (n - 1) ≤ num * 10 ^ (n + ndigits den) / den /
      10 ^ (ndigits (num * 10 ^ (n + ndigits den) / den) - n) := by
    rw [Nat.le_div_iff_mul_le (by positivity), ← pow_add]
    have : n - 1 + (ndigits (num * 10 ^ (n + ndigits den) / den) - n)
        = ndigits (num * 10 ^ (n + ndigits den) / den) - 1 := by omega
    rw [this]
    exact hD.2.2 hWpos
  have hq2 : num * 10 ^ (n + ndigits den) / den /
      10 ^ (ndigits (num * 10 ^ (n + ndigits den) / den) - n) < 10 ^ n := by
    rw [Nat.div_lt_iff_lt_mul (by positivity), ← pow_add]
    have : n + (ndigits (num * 10 ^ (n + ndigits den) / den) - n)
        = ndigits (num * 10 ^ (n + ndigits den) / den) := by omega
    rw [this]
    exact hD.2.1
  have hlt : 10 ^ (n - 1) < 10 ^ n := Nat.pow_lt_pow_right (by norm_num) (by omega)
  unfold significant
  simp only
  split
  · exact ⟨le_refl _, hlt⟩
  · rename_i hne
    have hb := round_half_even_bounds
      (num * 10 ^ (n + ndigits den) / den /
        10 ^ (ndigits (num * 10 ^ (n + ndigits den) / den) - n))
      (num * 10 ^ (n + ndigits den) / den %
        10 ^ (ndigits (num * 10 ^ (n + ndigits den) / den) - n))
      (5 * 10 ^ (ndigits (num * 10 ^ (n + ndigits den) / den) - n - 1))
      (decide (num * 10 ^ (n + ndigits den) % den ≠ 0))
    constructor
    · exact le_trans hq1 hb.1
    · omega

theorem limb_of_uint32 (n : Nat) (h : n < 4294967296) :
    as_limb_t 32 (as_uint32_t (n : Int)) = n := by
  unfold as_limb_t as_uint32_t
  have h1 : ((n : Int) % 4294967296) = n := Int.emod_eq_of_lt (by omega) (by omega)
  rw [h1]
  have h2 : ((n : Int) % 2 ^ 32) = n := Int.emod_eq_of_lt (by omega) (by norm_num; omega)
  rw [h2]
  simp

theorem limb_of_int32 (n : Nat) (h : n < 4294967296) :
    as_limb_t 32 (as_int32_t (n : Int)) = n := by
  unfold as_limb_t as_int32_t
  have h2 : ((2 : Int) ^ 32) = 4294967296 := by norm_num
  rw [h2]
  omega

/-! ## Decimal conversion through the wrapper -/

/-- C5: with the parser of the spec behind `bf_atof` (malformed text is
PARSE_ERROR, a non-zero status), set_string throws "could not set to string" on
every text that is not a well-formed decimal numeral, at every precision; it
never returns normally on malformed text. -/
theorem set_string_throws_on_malformed (parse_error : Int) (hpe : parse_error ≠ 0)
    (E : Engine bf_t Dbl) (bf : bf_t) (s : String) (precision : Int)
    (hs : ¬ well_formed_decimal s.toList) :
    (set_string (with_conversions parse_error E) bf s precision).thrown
      = some "could not set to string" ∧
    ¬ (set_string (with_conversions parse_error E) bf s precision).returns := by
  have hp : parse_decimal s.toList = none := (parse_decimal_eq_none_iff _).mpr hs
  have h : (set_string (with_conversions parse_error E) bf s precision).thrown
      = some "could not set to string" := by
    simp only [set_string, with_conversions, bf_atof_model, hp]
    rw [if_pos hpe]
  refine ⟨h, ?_⟩
  unfold Outcome.returns
  rw [h]
  exact fun hc => by cases hc

/-- C5 at the malformed texts the claim names: the empty text, a text without
digits and a numeral followed by trailing garbage. -/
theorem set_string_throws_on_malformed_witness :
    (set_string (with_conversions 64 (Engine.reporting 0 bf_t.nan (0 : Int) 0 none))
        (bf_t.zero false) "" 53).thrown = some "could not set to string" ∧
    (set_string (with_conversions 64 (Engine.reporting 0 bf_t.nan (0 : Int) 0 none))
        (bf_t.zero false) "abc" 53).thrown = some "could not set to string" ∧
    (set_string (with_conversions 64 (Engine.reporting 0 bf_t.nan (0 : Int) 0 none))
        (bf_t.zero false) "1.5abc" 53).thrown = some "could not set to string" :=
  ⟨(set_string_throws_on_malformed 64 (by decide) _ _ "" 53
      ((parse_decimal_eq_none_iff _).mp (by decide))).1,
   (set_string_throws_on_malformed 64 (by decide) _ _ "abc" 53
      ((parse_decimal_eq_none_iff _).mp (by decide))).1,
   (set_string_throws_on_malformed 64 (by decide) _ _ "1.5abc" 53
      ((parse_decimal_eq_none_iff _).mp (by decide))).1⟩

/-- C7 at a failing input: whatever the engine, set_string throws when
`bf_atof` reports the status INEXACT; and with the conversions of the spec,
`one_tenth_53` is a finite Number rounded to 53 bits (rounding it again changes
nothing and reports status 0), to_free writes it as "0.1", reading "0.1" back
at 53 bits gives a Number that compares equal to it with the status INEXACT,
and so set_string throws "could not set to string" on the round trip. -/
theorem round_trip_of_one_tenth_throws :
    (∀ (E : Engine bf_t Int) (y : bf_t) (s : String) (p : Int),
      (E.bf_atof y s 10 (as_limb_t E.LIMB_BITS (as_uint32_t p)) ⟨true⟩).2 = BF_ST_INEXACT →
      (set_string E y s p).thrown = some "could not set to string") ∧
    round_ratio false 3602879701896397 (2 ^ 55) 53 = (one_tenth_53, 0) ∧
    to_free (with_conversions 64 (Engine.reporting 0 bf_t.nan (0 : Int) 0 none))
      one_tenth_53 53 = .ok "0.1" ∧
    (with_conversions 64 (Engine.reporting 0 bf_t.nan (0 : Int) 0 none)).bf_atof
      (bf_t.zero false) "0.1" 10 53 ⟨true⟩ = (one_tenth_53, BF_ST_INEXACT) ∧
    compare (with_conversions 64 (Engine.reporting 0 bf_t.nan (0 : Int) 0 none))
      one_tenth_53 one_tenth_53 = .ok 0 ∧
    set_string (with_conversions 64 (Engine.reporting 0 bf_t.nan (0 : Int) 0 none))
      (bf_t.zero false) "0.1" 53 = ⟨one_tenth_53, some "could not set to string"⟩ := by
  refine ⟨?_, by decide⟩
  intro E y s p h
  simp only [set_string, h]
  rfl

/-- C2 at a failing input: whatever the engine, set_string throws exactly when
`bf_atof` reports a non-zero status, INEXACT included, whereas wrapper_add lets
a status of exactly INEXACT pass; read at 53 bits, "0.1" is the numeral
`1 * 10^-1`, which is not a 53-bit Number, so `bf_atof` reports INEXACT; hence
set_string(y, "0.1", 53) throws "could not set to string" and does not return
normally. -/
theorem set_string_throws_on_inexact_parse :
    (∀ (E : Engine bf_t Int) (y : bf_t) (s : String) (p : Int),
      throws_iff_nonzero (set_string E y s p)
        (E.bf_atof y s 10 (as_limb_t E.LIMB_BITS (as_uint32_t p)) ⟨true⟩).2) ∧
    (∀ (E : Engine bf_t Int) (a b result : bf_t) (p : Int),
      ignores_inexact (wrapper_add E a b p result)
        (E.bf_add result a b (as_limb_t E.LIMB_BITS (as_int32_t p)) .BF_RNDN).2
        (E.bf_add result a b (as_limb_t E.LIMB_BITS (as_int32_t p)) .BF_RNDN).1) ∧
    parse_decimal "0.1".toList = some ⟨false, 1, -1⟩ ∧
    round_decimal ⟨false, 1, -1⟩ 53 = (one_tenth_53, BF_ST_INEXACT) ∧
    (set_string (with_conversions 64 (Engine.reporting 0 bf_t.nan (0 : Int) 0 none))
      (bf_t.zero false) "0.1" 53).thrown = some "could not set to string" ∧
    ¬ (set_string (with_conversions 64 (Engine.reporting 0 bf_t.nan (0 : Int) 0 none))
      (bf_t.zero false) "0.1" 53).returns := by
  refine ⟨fun E y s p => nonzero_rule _ _ _, fun E a b result p => ignore_rule _ _ _,
    by decide, by decide, by decide, by decide⟩

/-! ## Storage and precision arguments -/

/-- C9 at every memory state: after create_bf and destroy_bf on the Number it
returned, the `bf_t` record obtained by create_bf is still a live allocation,
so the live allocations are not what they were, whereas destroy_context after
create_context leaves them exactly as before. -/
theorem create_bf_destroy_bf_leaks_record (M : Memory) (ctx : Nat) :
    (destroy_bf (create_bf M ctx).2 (create_bf M ctx).1).heap.live
      = (create_bf M ctx).1 :: M.heap.live ∧
    (destroy_bf (create_bf M ctx).2 (create_bf M ctx).1).heap.live ≠ M.heap.live ∧
    (destroy_context (create_context M).2 (create_context M).1).heap.live = M.heap.live := by
  have h1 : (destroy_bf (create_bf M ctx).2 (create_bf M ctx).1).heap.live
      = (create_bf M ctx).1 :: M.heap.live := by
    simp [destroy_bf, create_bf, bf_delete, bf_init, malloc, List.lookup]
  refine ⟨h1, ?_, ?_⟩
  · rw [h1]
    intro hc
    have := congrArg List.length hc
    simp at this
  · simp [destroy_context, create_context, bf_context_end, bf_clear_cache, bf_context_init,
      malloc, free, List.lookup]

/-- Where the width of `limb_t` matters: the precision parameter of wrapper_add
is an `int32_t`, so the caller's 2147483648 is held as -2147483648; an engine
with 64-bit limbs would be handed 18446744071562067968 (the sign-extended
value), one with 32-bit limbs is handed 2147483648; set_string, whose parameter
is a `uint32_t`, hands 2147483648 to both. -/
theorem int32_precision_by_limb_width :
    as_int32_t 2147483648 = -2147483648 ∧
    (wrapper_add (precision_probe 64) 0 0 2147483648 0).out = 18446744071562067968 ∧
    (wrapper_add (precision_probe 32) 0 0 2147483648 0).out = 2147483648 ∧
    (set_string (precision_probe 64) 0 "1" 2147483648).out = 2147483648 ∧
    (set_string (precision_probe 32) 0 "1" 2147483648).out = 2147483648 := by
  decide

/-- C10: with the 32-bit limbs of the target the wrapper is built for, every
exported operation that takes a precision hands the engine the caller's value
`n` itself, for every `0 <= n < 2^32`: each wrapper is its status test applied
to the engine call made with the precision `n`, a non-negative number, also
where the parameter is declared `int32_t` and `n` is `2^31` or more. -/
theorem precision_reaches_engine_unchanged (E : Engine Num Dbl) (hE : E.LIMB_BITS = 32)
    (n : Nat) (hn : n < 4294967296)
    (a b bf result quotient remainder : Num) (s : String) :
    set_string E bf s (n : Int) =
      checked_nonzero (E.bf_atof bf s 10 n ⟨true⟩) "could not set to string" ∧
    wrapper_set_log2 E bf (n : Int) =
      checked_inexact (E.bf_const_log2 bf n .BF_RNDN) "error setting log(2)" ∧
    wrapper_set_pi E bf (n : Int) =
      checked_inexact (E.bf_const_pi bf n .BF_RNDN) "error setting pi" ∧
    wrapper_add E a b (n : Int) result =
      checked_inexact (E.bf_add result a b n .BF_RNDN) "error while adding" ∧
    wrapper_sub E a b (n : Int) result =
      checked_inexact (E.bf_sub result a b n .BF_RNDN) "error while subtracting" ∧
    wrapper_mul E a b (n : Int) result =
      checked_inexact (E.bf_mul result a b n .BF_RNDN) "error while multiplying" ∧
    wrapper_div E a b (n : Int) result =
      checked_division (E.bf_div result a b n .BF_RNDN) "error while dividing" ∧
    wrapper_rem E a b (n : Int) result =
      checked_division (E.bf_rem result a b n .BF_RNDN .BF_RNDN) "error while dividing" ∧
    wrapper_divrem E a b (n : Int) quotient remainder =
      checked_division (E.bf_divrem quotient remainder a b n .BF_RNDN .BF_RNDN) "error while dividing" ∧
    wrapper_round E bf (n : Int) =
      checked_inexact (E.bf_round bf n .BF_RNDN) "error while rounding" ∧
    wrapper_sqrt E bf (n : Int) result =
      checked_inexact (E.bf_sqrt result bf n .BF_RNDN) "error while taking square root" ∧
    wrapper_exp E bf (n : Int) result =
      checked_inexact (E.bf_exp result bf n .BF_RNDN) "error while exponentiating" ∧
    wrapper_log E bf (n : Int) result =
      checked_inexact (E.bf_log result bf n .BF_RNDN) "error while taking logarithm" ∧
    wrapper_pow E a b (n : Int) result =
      checked_inexact (E.bf_pow result a b n .BF_RNDN) "error while raising to power" ∧
    wrapper_cos E bf (n : Int) result =
      checked_inexact (E.bf_cos result bf n .BF_RNDN) "error wile taking cosine" ∧
    wrapper_sin E bf (n : Int) result =
      checked_inexact (E.bf_sin result bf n .BF_RNDN) "error wile taking sine" ∧
    wrapper_tan E bf (n : Int) result =
      checked_inexact (E.bf_tan result bf n .BF_RNDN) "error wile taking tangent" ∧
    wrapper_acos E bf (n : Int) result =
      checked_inexact (E.bf_acos result bf n .BF_RNDN) "error wile taking arccosine" ∧
    wrapper_asin E bf (n : Int) result =
      checked_inexact (E.bf_asin result bf n .BF_RNDN) "error wile taking arcsine" ∧
    wrapper_atan E bf (n : Int) result =
      checked_inexact (E.bf_atan result bf n .BF_RNDN) "error wile taking arctangent" ∧
    to_free E bf (n : Int) =
      checked_text (E.bf_ftoa bf 10 n ⟨.BF_FTOA_FORMAT_FREE_MIN, .BF_RNDN⟩)
        "could not write BigFloat to string" := by
  have hu := limb_of_uint32 n hn
  have hi := limb_of_int32 n hn
  refine ⟨?_, ?_, ?_, ?_, ?_, ?_, ?_, ?_, ?_, ?_, ?_, ?_, ?_, ?_, ?_, ?_, ?_, ?_, ?_, ?_, ?_⟩
  · simp only [set_string, hE, hu]; rfl
  · simp only [wrapper_set_log2, hE, hu]; rfl
  · simp only [wrapper_set_pi, hE, hu]; rfl
  · simp only [wrapper_add, hE, hi]; rfl
  · simp only [wrapper_sub, hE, hi]; rfl
  · simp only [wrapper_mul, hE, hi]; rfl
  · simp only [wrapper_div, hE, hi]; rfl
  · simp only [wrapper_rem, hE, hi]; rfl
  · simp only [wrapper_divrem, hE, hi]; rfl
  · simp only [wrapper_round, hE, hi]; rfl
  · simp only [wrapper_sqrt, hE, hi]; rfl
  · simp only [wrapper_exp, hE, hi]; rfl
  · simp only [wrapper_log, hE, hi]; rfl
  · simp only [wrapper_pow, hE, hi]; rfl
  · simp only [wrapper_cos, hE, hi]; rfl
  · simp only [wrapper_sin, hE, hi]; rfl
  · simp only [wrapper_tan, hE, hi]; rfl
  · simp only [wrapper_acos, hE, hi]; rfl
  · simp only [wrapper_asin, hE, hi]; rfl
  · simp only [wrapper_atan, hE, hi]; rfl
  · simp only [to_free, hE, hu]; rfl

/-- C10 at the precisions 2147483648 and 4294967295, on an engine with 32-bit
limbs that answers with the precision it was handed: set_string, whose
parameter is a `uint32_t`, and wrapper_add, whose parameter is an `int32_t`,
both hand the engine the caller's value. -/
theorem precision_reaches_engine_unchanged_witness :
    (set_string (precision_probe 32) 0 "1" 2147483648).out = 2147483648 ∧
    (wrapper_add (precision_probe 32) 0 0 2147483648 0).out = 2147483648 ∧
    (wrapper_add (precision_probe 32) 0 0 4294967295 0).out = 4294967295 := by
  have h1 := precision_reaches_engine_unchanged (precision_probe 32) rfl 2147483648 (by decide)
    0 0 0 0 0 0 "1"
  have h2 := precision_reaches_engine_unchanged (precision_probe 32) rfl 4294967295 (by decide)
    0 0 0 0 0 0 "1"
  refine ⟨?_, ?_, ?_⟩
  · have h := h1.1
    simp only [Nat.cast_ofNat] at h
    rw [h]; rfl
  · have h := h1.2.2.2.1
    simp only [Nat.cast_ofNat] at h
    rw [h]; rfl
  · have h := h2.2.2.2.1
    simp only [Nat.cast_ofNat] at h
    rw [h]; rfl

end LibbfJs
